import Mathlib

/-!
# pr-downloader: the piece-wise HTTP download engine and its driver

A shallow embedding of `src/Downloader/Http/HttpDownloader.cpp` and of the
driver functions of `src/pr-downloader.cpp` (with the data declarations of
`src/Downloader/Download.h`) and theorems about them.

Conventions of the embedding

* Pointers to heap objects become values that are passed in and returned.  A
  transfer slot (`DownloadData*`) carries an `id` standing for its address, so
  that pointer comparisons (`write_only_from != data`) are comparisons of ids.
  A `Mirror*` held by a slot is an index into the mirror list of its download.
* `int` is `Int` wrapped to 32 bits by `wrapInt`; `size_t` is `Nat` below `2^64`;
  `long` has 64 bits, and `sscanf` is the one of glibc.
* A function returns `none` where the C++ has no defined result (an index out
  of bounds, a null dereference, an integer division by zero).
* Logging and the progress listener have no effect on the state and are left
  out.
* What curl and the network do is an argument: the trace of
  `curl_multi_perform` for `download`, the search service for `addDepends`.
  What the file system holds is part of the `CFile` of a download.
-/

namespace PrDownloader

/-! ## Machine integers -/

/-- Two's-complement wrap of a mathematical integer to a 32-bit `int`. -/
def wrapInt (x : Int) : Int := (x + 2147483648) % 4294967296 - 2147483648

/-- Conversion of an `int` to `size_t` (64 bit, modular). -/
def toSizeT (x : Int) : Nat := (x % 18446744073709551616).toNat

/-- The value `(size_t)-1` that the callbacks hand to curl to abort a transfer. -/
def CURL_ABORT : Nat := 18446744073709551615

/-! ## Data model -/

/-- A digest value (MD5 or SHA-1) as its byte string. -/
abbrev Digest := List Nat

/-- The enum `IDownload::PIECE_STATE`; also the type of `IDownload::state`. -/
inductive PIECE_STATE
  | STATE_NONE
  | STATE_DOWNLOADING
  | STATE_FINISHED
  deriving DecidableEq, Repr

/-- The struct `IDownload::piece`.  The field `sha` is `none` when
`sha->isSet()` is false and the expected SHA-1 otherwise. -/
structure piece where
  sha : Option Digest
  state : PIECE_STATE
  deriving DecidableEq, Repr

/-- Health of a mirror (`Mirror::STATUS_*`). -/
inductive MirrorStatus
  | STATUS_BROKEN
  | STATUS_OK
  | STATUS_UNKNOWN
  deriving DecidableEq, Repr

/-- Modelled from the spec: the class `Mirror` (Downloader/Mirror.h is not part
of the sources at hand): a URL, a health status and the last observed speed. -/
structure Mirror where
  url : String
  status : MirrorStatus
  speed : Nat
  deriving DecidableEq, Repr

/-- Modelled from the spec: the class `CFile` (FileSystem/File.h is not part of
the sources at hand).  The bytes on disk are seen only through their digests:
`disk_sha1[i]` is the SHA-1 of the bytes now stored at piece `i`, `disk_md5`
the MD5 of the whole file.  `written` logs the calls of `Write` as pairs of the
piece argument and the bytes, oldest first.  `open_ok` is what the file system
answers when the file is opened. -/
structure CFile where
  isnewfile : Bool
  size : Int
  piecesize : Int
  timestamp : Int
  disk_sha1 : List Digest
  disk_md5 : Digest
  written : List (Int × List Nat)
  open_ok : Bool := true
  deriving DecidableEq, Repr

/-- The transport of a download (`IDownload::TYP_*`). -/
inductive DLTYPE
  | TYP_RAPID
  | TYP_HTTP
  deriving DecidableEq, Repr

/-- Modelled from the spec: the enum `DownloadEnum::Category`
(Downloader/DownloadEnum.h is not part of the sources at hand), with the
constants that pr-downloader.cpp names. -/
inductive Category
  | CAT_NONE
  | CAT_MAP
  | CAT_GAME
  | CAT_ENGINE
  | CAT_ENGINE_LINUX
  | CAT_ENGINE_LINUX64
  | CAT_ENGINE_MACOSX
  | CAT_ENGINE_WINDOWS
  | CAT_ENGINE_WINDOWS64
  | CAT_HTTP
  | CAT_SPRINGLOBBY
  | CAT_COUNT
  deriving DecidableEq, Repr

/-- The class `IDownload`, restricted to the members the HTTP engine and the
driver use.  `hash` is `none` for a null pointer and the expected MD5
otherwise; `write_only_from` is the id of the latched slot.  `file_null` says
that `dl->file` is a null pointer; `file` is the file of the download, for a
null pointer the file that `download` gets when it opens it before the first
slot is set up.  A slot exists only once `download` has opened the file of its
download, so the methods that work on a slot dereference `file`, and
`file_null` is read by `download` and `VerifySinglePieceDownload` only. -/
structure IDownload where
  name : String
  dltype : DLTYPE
  pieces : List piece
  state : PIECE_STATE
  parallel_downloads : Int
  size : Int
  piecesize : Int
  hash : Option Digest
  mirrors : List Mirror
  write_only_from : Option Nat
  file : CFile
  origin_name : String := ""
  cat : Category := Category.CAT_NONE
  version : String := ""
  depend : List String := []
  file_null : Bool := false
  deriving DecidableEq, Repr

/-- The class `DownloadData`: one transfer slot.  `id` stands for the address
of the object, `mirror` is an index into the mirrors of the download, `active`
says that `curlw` is not null, and `range`, `header_hook`, `if_modified_since`
record the options set on the curl handle (`CURLOPT_RANGE`,
`CURLOPT_HEADERFUNCTION`, `CURLOPT_TIMEVALUE`).  `download` is the position of
the download of the slot in the list that `download` works on. -/
structure DownloadData where
  id : Nat
  start_piece : Int
  pieces : List Nat
  got_ranges : Bool
  mirror : Option Nat
  active : Bool
  range : Option String
  header_hook : Bool
  if_modified_since : Option Int
  download : Nat := 0
  deriving DecidableEq, Repr

/-- Modelled from the spec: the method `IDownload::isFinished` (the header at
hand, Download.h, predates it): the state of the download is `FINISHED`, the
test that `DownloadStart` writes as `dl->state != IDownload::STATE_FINISHED`. -/
def IDownload.isFinished (d : IDownload) : Bool :=
  d.state = PIECE_STATE.STATE_FINISHED

/-! ## The file abstraction -/

/-- Modelled from the spec: `CFile::Open(name, size, piecesize)` creates or
opens the target and says whether that worked, which the file system decides. -/
def CFile.Open (f : CFile) (_name : String) (_size _piecesize : Int) : Bool := f.open_ok

/-- Modelled from the spec: `CFile::Hash(sha1, i)` streams the bytes of piece
`i` through the hasher; the result is the digest of what is on disk there. -/
def CFile.Hash (f : CFile) (i : Nat) : Option Digest := f.disk_sha1[i]?

/-- Modelled from the spec: `CFile::GetPieceSize(i)`, the effective size of
piece `i` (the last piece may be shorter); a negative argument asks for the
size of the whole file, as `setupDownload` does with `-1`. -/
def CFile.GetPieceSize (f : CFile) (i : Int) : Int :=
  if i < 0 then f.size
  else if (i + 1) * f.piecesize ≤ f.size then f.piecesize
  else if i * f.piecesize < f.size then f.size - i * f.piecesize
  else 0

/-- Modelled from the spec: `CFile::GetPiecesSize(pieces)`, the sum of the
sizes of the given pieces. -/
def CFile.GetPiecesSize (f : CFile) (pieces : List Nat) : Int :=
  (pieces.map (fun i => f.GetPieceSize (i : Int))).sum

/-- Modelled from the spec: `CFile::Hash(md5)` streams the whole file through
the hasher. -/
def CFile.HashWhole (f : CFile) : Digest := f.disk_md5

/-- Modelled from the spec: `CFile::Write(buf, bufsize, piece)` stores the
first `bufsize` bytes of `buf` at the position of `piece` and returns the
number of bytes written. -/
def CFile.Write (f : CFile) (buf : List Nat) (bufsize : Nat) (piece : Int) : CFile × Nat :=
  ({ f with written := f.written ++ [(piece, buf.take bufsize)] }, bufsize)

/-! ## Mirrors -/

/-- Modelled from the spec: `IDownload::getFastestMirror` returns the mirror
with the highest speed among those that are not `BROKEN` (the first such in
list order on a tie), or nothing when every mirror is broken.  The result is
the index of the mirror. -/
def getFastestMirrorFrom : Nat → List Mirror → Option (Nat × Nat) → Option Nat
  | _, [], best => best.map Prod.fst
  | i, m :: rest, best =>
    if m.status = MirrorStatus.STATUS_BROKEN then getFastestMirrorFrom (i + 1) rest best
    else
      match best with
      | none => getFastestMirrorFrom (i + 1) rest (some (i, m.speed))
      | some (j, s) =>
        if s < m.speed then getFastestMirrorFrom (i + 1) rest (some (i, m.speed))
        else getFastestMirrorFrom (i + 1) rest (some (j, s))

/-- Modelled from the spec: see `getFastestMirrorFrom`. -/
def IDownload.getFastestMirror (d : IDownload) : Option Nat :=
  getFastestMirrorFrom 0 d.mirrors none

/-- Modelled from the spec: the method `IDownload::getMirrorCount`, the number
of mirrors of the download. -/
def IDownload.getMirrorCount (d : IDownload) : Int := (d.mirrors.length : Int)

/-- The assignment `mirror->status = s` through a mirror pointer; `none` for a
null or dangling pointer. -/
def setMirrorStatus (ms : List Mirror) (m : Option Nat) (s : MirrorStatus) :
    Option (List Mirror) :=
  match m with
  | none => none
  | some i =>
    match ms[i]? with
    | none => none
    | some mi => some (ms.set i { mi with status := s })

/-- Modelled from the spec: `Mirror::UpdateSpeed` replaces the speed by the
last observed one. -/
def updateMirrorSpeed (ms : List Mirror) (m : Option Nat) (speed : Nat) :
    Option (List Mirror) :=
  match m with
  | none => none
  | some i =>
    match ms[i]? with
    | none => none
    | some mi => some (ms.set i { mi with speed := speed })

/-- The status a mirror pointer points at. -/
def mirrorStatus (ms : List Mirror) (m : Option Nat) : Option MirrorStatus :=
  match m with
  | none => none
  | some i => (ms[i]?).map Mirror.status

/-- The assignment `pieces[i].state = s`; `none` when `i` is out of bounds. -/
def setPieceState (ps : List piece) (i : Nat) (s : PIECE_STATE) : Option (List piece) :=
  match ps[i]? with
  | none => none
  | some p => some (ps.set i { p with state := s })

/-- The state of piece `i`. -/
def pieceState (ps : List piece) (i : Nat) : Option PIECE_STATE :=
  (ps[i]?).map piece.state

/-! ## `getRange` -/

/-- The first number `getRange` prints: `(int)(piecesize * start_piece)`. -/
def rangeStart (start_piece piecesize : Int) : Int :=
  wrapInt (piecesize * start_piece)

/-- The second number `getRange` prints:
`(piecesize * start_piece) + piecesize * num_pieces - 1` in `int` arithmetic. -/
def rangeEnd (start_piece num_pieces piecesize : Int) : Int :=
  wrapInt (wrapInt (wrapInt (piecesize * start_piece) + wrapInt (piecesize * num_pieces)) - 1)

/-- The method `CHttpDownloader::getRange`: the result flag and the string
stored in `range`.  `operator<<` prints an `int` in decimal, with a leading
minus sign when negative, which is what `Int.repr` does. -/
def getRange (start_piece num_pieces piecesize : Int) : Bool × String :=
  (true,
    Int.repr (rangeStart start_piece piecesize) ++ "-" ++
      Int.repr (rangeEnd start_piece num_pieces piecesize))

/-! ## Piece selection -/

/-- The quotient `download->pieces.size() / download->parallel_downloads` of
`verifyAndGetNextPieces`, computed in `size_t`; `none` for a division by
zero. -/
def fairShare (d : IDownload) : Option Nat :=
  if toSizeT d.parallel_downloads = 0 then none
  else some (d.pieces.length / toSizeT d.parallel_downloads)

/-- The `for` loop of `verifyAndGetNextPieces`, from index `i` on: the second
argument is `download->pieces[i..]`, the third the vector `pieces` collected so
far.  The result is the updated `download->pieces[i..]` and the final vector.
Returning without a recursive call is `break`, the recursive call is the next
iteration (`continue`).  The counter `alreadyDl` is never read and is left
out. -/
def nextPiecesLoop (file : CFile) (share : Option Nat) :
    Nat → List piece → List Nat → Option (List piece × List Nat)
  | _, [], sel => some ([], sel)
  | i, p :: rest, sel =>
    if p.state = PIECE_STATE.STATE_FINISHED then
      if 0 < sel.length then some (p :: rest, sel)
      else (nextPiecesLoop file share (i + 1) rest sel).map (fun r => (p :: r.1, r.2))
    else if p.state = PIECE_STATE.STATE_NONE then
      if p.sha.isSome ∧ file.isnewfile = false ∧ file.Hash i = p.sha then
        if 0 < sel.length then
          some ({ p with state := PIECE_STATE.STATE_FINISHED } :: rest, sel)
        else
          (nextPiecesLoop file share (i + 1) rest sel).map
            (fun r => ({ p with state := PIECE_STATE.STATE_FINISHED } :: r.1, r.2))
      else
        match share with
        | none => none
        | some s =>
          if (sel ++ [i]).length = s then some (p :: rest, sel ++ [i])
          else
            (nextPiecesLoop file share (i + 1) rest (sel ++ [i])).map
              (fun r => (p :: r.1, r.2))
    else (nextPiecesLoop file share (i + 1) rest sel).map (fun r => (p :: r.1, r.2))

/-- The method `CHttpDownloader::verifyAndGetNextPieces`: the returned vector
and the download after the call. -/
def verifyAndGetNextPieces (d : IDownload) : Option (List Nat × IDownload) :=
  if d.isFinished then some ([], d)
  else if d.pieces.isEmpty ∧ d.hash.isSome ∧ some d.file.HashWhole = d.hash then
    some ([], { d with state := PIECE_STATE.STATE_FINISHED })
  else
    match nextPiecesLoop d.file (fairShare d) 0 d.pieces [] with
    | none => none
    | some (ps, sel) =>
      if sel.length = 0 ∧ d.pieces.length ≠ 0 then
        some (sel, { d with pieces := ps, state := PIECE_STATE.STATE_FINISHED })
      else some (sel, { d with pieces := ps })

/-! ## Setting up a slot -/

/-- The loop at the end of the chunked branch of `setupDownload`:
`download->pieces[*it].state = STATE_DOWNLOADING` for every selected piece. -/
def markDownloading : List piece → List Nat → Option (List piece)
  | ps, [] => some ps
  | ps, i :: sel =>
    match setPieceState ps i PIECE_STATE.STATE_DOWNLOADING with
    | none => none
    | some ps1 => markDownloading ps1 sel

/-- The method `CHttpDownloader::setupDownload`: its result, the download and
the slot after the call.  A fresh `CurlWrapper` has no option set.  The method
dereferences `download->file` for the call of `verifyAndGetNextPieces`, so the
file is open and the test `if (piece->download->file)` that follows holds. -/
def setupDownload (d : IDownload) (piece : DownloadData) :
    Option (Bool × IDownload × DownloadData) :=
  match verifyAndGetNextPieces d with
  | none => none
  | some (pieces, d1) =>
    if d1.isFinished then some (false, d1, piece)
    else
      let d2 := { d1 with size := d1.file.GetPieceSize (-1) }
      let start_piece : Int :=
        match pieces with
        | [] => -1
        | p0 :: _ => wrapInt (p0 : Int)
      let piece1 : DownloadData :=
        { piece with
          start_piece := start_piece, pieces := pieces, active := true,
          range := none, header_hook := false, if_modified_since := none,
          mirror := d2.getFastestMirror }
      match piece1.mirror with
      | none => some (false, d2, piece1)
      | some _ =>
        if 0 < d2.size ∧ 0 ≤ start_piece ∧ 0 < d2.pieces.length then
          let r := getRange start_piece (wrapInt (pieces.length : Int)) d2.piecesize
          if r.1 = false then some (false, d2, piece1)
          else
            match markDownloading d2.pieces pieces with
            | none => none
            | some ps =>
              some (true, { d2 with pieces := ps },
                { piece1 with
                  range :=
                    if ¬ (start_piece = 0 ∧ pieces.length = d2.pieces.length) then some r.2
                    else none,
                  header_hook := true })
        else
          some (true, d2,
            { piece1 with
              got_ranges := true,
              if_modified_since :=
                if 0 ≤ d2.file.timestamp ∧ d2.hash = none then some d2.file.timestamp
                else none })

/-! ## The curl callbacks -/

/-- The callback `multi_write_data`.  `abort` is `IDownloader::AbortDownloads()`,
`ptr` the received bytes; the result is the value handed back to curl, the
download and the slot. -/
def multi_write_data (abort : Bool) (ptr : List Nat) (size nmemb : Nat)
    (d : IDownload) (data : DownloadData) : Nat × IDownload × DownloadData :=
  if abort then (CURL_ABORT, d, data)
  else
    let d1 : IDownload :=
      if data.got_ranges = false then { d with write_only_from := some data.id } else d
    let data1 : DownloadData :=
      if data.got_ranges = false then { data with got_ranges := true } else data
    match d1.write_only_from with
    | some w =>
      if w ≠ data1.id then (size * nmemb % 18446744073709551616, d1, data1)
      else
        let r := d1.file.Write ptr (size * nmemb % 18446744073709551616) 0
        (r.2, { d1 with file := r.1 }, data1)
    | none =>
      let r := d1.file.Write ptr (size * nmemb % 18446744073709551616) data1.start_piece
      (r.2, { d1 with file := r.1 }, data1)

/-- The predicate `isspace` of the C locale. -/
def isspaceC (c : Char) : Bool :=
  c = ' ' ∨ c = '\t' ∨ c = '\n' ∨ c = '\r' ∨ c.toNat = 11 ∨ c.toNat = 12

/-- A literal part of a `sscanf` format: every character must be the next one
of the input. -/
def scanLiteral : List Char → List Char → Option (List Char)
  | [], s => some s
  | _ :: _, [] => none
  | c :: cs, x :: s => if c = x then scanLiteral cs s else none

/-- The digits read by a `%d` conversion, accumulated in base ten. -/
def scanDigits : List Char → Nat → Nat × List Char
  | [], acc => (acc, [])
  | c :: s, acc =>
    if c.isDigit then scanDigits s (acc * 10 + (c.toNat - 48)) else (acc, c :: s)

/-- The optional sign in front of the digits of a `%d` conversion: whether it
is a minus sign, and the input after it. -/
def scanSign : List Char → Bool × List Char
  | '-' :: t => (true, t)
  | '+' :: t => (false, t)
  | s => (false, s)

/-- The value that `strtol` gives for a numeral denoting `x`, with a `long`
of 64 bits: `x` itself, or `LONG_MAX` or `LONG_MIN` when `x` is out of range. -/
def strtolValue (x : Int) : Int :=
  if 9223372036854775807 < x then 9223372036854775807
  else if x < -9223372036854775808 then -9223372036854775808
  else x

/-- A `%d` conversion of `sscanf`: leading white space is skipped, then an
optional sign and at least one digit are read.  The C library (glibc, on a
platform with a `long` of 64 bits) converts the numeral with `strtol`, which
saturates, and stores the `long` into the `int`, which truncates: a numeral
above `LONG_MAX` is stored as `-1`. -/
def scanInt (s : List Char) : Option (Int × List Char) :=
  let sg := scanSign (s.dropWhile isspaceC)
  match sg.2 with
  | [] => none
  | c :: _ =>
    if c.isDigit then
      let r := scanDigits sg.2 0
      some (wrapInt (strtolValue (if sg.1 then - (r.1 : Int) else (r.1 : Int))), r.2)
    else none

/-- The call `sscanf(buf, "Content-Range: bytes %d-%d/%d", &start, &end, &total)`:
the list of the values converted, in order; its length is the `count` that
`sscanf` returns. -/
def sscanfContentRange (buf : List Char) : List Int :=
  match scanLiteral "Content-Range:".toList buf with
  | none => []
  | some s1 =>
    match scanLiteral "bytes".toList (s1.dropWhile isspaceC) with
    | none => []
    | some s2 =>
      match scanInt (s2.dropWhile isspaceC) with
      | none => []
      | some (start, s3) =>
        match scanLiteral ['-'] s3 with
        | none => [start]
        | some s4 =>
          match scanInt s4 with
          | none => [start]
          | some (end_, s5) =>
            match scanLiteral ['/'] s5 with
            | none => [start, end_]
            | some s6 =>
              match scanInt s6 with
              | none => [start, end_]
              | some (total, _) => [start, end_, total]

/-- The C string `buf.c_str()` that `multiHeader` scans, for
`buf((char*)ptr, n - 1)` with `n = size * nmemb`: the first `n - 1` characters
of the header line, up to the first NUL character. -/
def headerCStr (ptr : List Char) (n : Nat) : List Char :=
  (ptr.take (n - 1)).takeWhile (fun c => c.toNat ≠ 0)

/-- The callback `multiHeader`.  `ptr` holds the `size * nmemb` bytes of the
header line.  The result is the value handed back to curl and the slot; `none`
when `size * nmemb` is zero, where the length `size * nmemb - 1` of `buf`
underflows. -/
def multiHeader (ptr : List Char) (size nmemb : Nat) (d : IDownload) (data : DownloadData) :
    Option (Nat × DownloadData) :=
  if d.pieces.isEmpty then
    some (size * nmemb % 18446744073709551616, { data with got_ranges := true })
  else if size * nmemb % 18446744073709551616 = 0 then none
  else
    match sscanfContentRange (headerCStr ptr (size * nmemb % 18446744073709551616)) with
    | [start, end_, _] =>
      if wrapInt (wrapInt (end_ - start) + 1) ≠ wrapInt (d.file.GetPiecesSize data.pieces) then
        some (CURL_ABORT, data)
      else some (size * nmemb % 18446744073709551616, { data with got_ranges := true })
    | _ => some (size * nmemb % 18446744073709551616, data)

/-- The header line `Content-Range: bytes S-E/T` with its line end, as curl
hands it to the header callback. -/
def contentRangeLine (S E T : Nat) : List Char :=
  "Content-Range: bytes ".toList ++ (Nat.repr S).toList ++ ['-'] ++ (Nat.repr E).toList ++
    ['/'] ++ (Nat.repr T).toList ++ ['\r', '\n']

/-- The characters of a `Content-Range` line up to `rest`, grouped the way
`sscanf` consumes them. -/
def contentRangeChars (S E T : Nat) (rest : List Char) : List Char :=
  "Content-Range:".toList ++ (' ' :: ("bytes".toList ++ (' ' :: ((Nat.repr S).toList ++
    ('-' :: ((Nat.repr E).toList ++ ('/' :: ((Nat.repr T).toList ++ rest))))))))

/-- The number that a list of decimal digits denotes, continuing from `acc`. -/
def digitsVal (cs : List Char) (acc : Nat) : Nat :=
  cs.foldl (fun a c => a * 10 + (c.toNat - 48)) acc

/-! ## Completion of a transfer -/

/-- One iteration of the loop of `VerifyPieces`, for the loop counter `idx`:
the piece `data.download->pieces[idx]` is hashed with `Hash(sha1, idx)` when
its SHA-1 is set. -/
def verifyPieceAt (data : DownloadData) (d : IDownload) (idx : Nat) : Option IDownload :=
  match d.pieces[idx]? with
  | none => none
  | some p =>
    match p.sha with
    | some h =>
      if d.file.Hash idx = some h then
        some { d with pieces := d.pieces.set idx { p with state := PIECE_STATE.STATE_FINISHED } }
      else
        match setMirrorStatus d.mirrors data.mirror MirrorStatus.STATUS_BROKEN with
        | none => none
        | some ms =>
          some { d with
            pieces := d.pieces.set idx { p with state := PIECE_STATE.STATE_NONE },
            mirrors := ms }
    | none => some d

/-- The method `CHttpDownloader::VerifyPieces`: the loop
`for (size_t idx = 0; idx < data.pieces.size(); idx++)`. -/
def VerifyPieces (data : DownloadData) (d : IDownload) : Option IDownload :=
  (List.range data.pieces.length).foldlM (verifyPieceAt data) d

/-- The `default:` branch of the switch on `msg->data.result` in
`processMessages`: the transfer ended with an error. -/
def processError (data : DownloadData) (d : IDownload) : Option IDownload :=
  let ps : Option (List piece) :=
    if 0 ≤ data.start_piece then
      setPieceState d.pieces data.start_piece.toNat PIECE_STATE.STATE_NONE
    else some d.pieces
  match ps with
  | none => none
  | some ps1 =>
    match setMirrorStatus d.mirrors data.mirror MirrorStatus.STATUS_BROKEN with
    | none => none
    | some ms => some { d with pieces := ps1, mirrors := ms }

/-- What the body of the `while` loop of `processMessages` did with a message:
it left the function with `return`, or it went on to the next message. -/
inductive MsgResult
  | returned (value : Bool)
  | next
  deriving DecidableEq, Repr

/-- The case `CURLMSG_DONE` of `processMessages` for the slot `data` that
`getDataByHandle` found.  `ok` says that `msg->data.result` is `CURLE_OK`,
`dlSpeed` is the speed curl reports for the transfer.  The result is what the
loop body did, the download and the slot afterwards. -/
def processDone (ok : Bool) (dlSpeed : Nat) (d : IDownload) (data : DownloadData) :
    Option (MsgResult × IDownload × DownloadData) :=
  match (if ok then some d else processError data d) with
  | none => none
  | some d1 =>
    if data.start_piece < 0 then some (MsgResult.returned false, d1, data)
    else
      match VerifyPieces data d1 with
      | none => none
      | some d2 =>
        match updateMirrorSpeed d2.mirrors data.mirror dlSpeed with
        | none => none
        | some ms =>
          let ms1 : Option (List Mirror) :=
            if mirrorStatus ms data.mirror = some MirrorStatus.STATUS_UNKNOWN then
              setMirrorStatus ms data.mirror MirrorStatus.STATUS_OK
            else some ms
          match ms1 with
          | none => none
          | some ms2 =>
            match setupDownload { d2 with mirrors := ms2 } { data with active := false } with
            | none => none
            | some r => some (MsgResult.next, r.2.1, r.2.2)

/-! ## Seeding the slots in `download` -/

/-- The number `count` of parallel transfers that `download` computes for a
download. -/
def parallelCount (max_parallel : Int) (d : IDownload) : Int :=
  min max_parallel (max 1 (min (wrapInt (d.pieces.length : Int)) d.getMirrorCount))

/-- Modelled from the spec: a slot as `new DownloadData()` makes it
(Downloader/DownloadData.h is not part of the sources at hand): no pieces, no
mirror, no curl handle, `got_ranges` false. -/
def newDownloadData (id : Nat) : DownloadData :=
  { id := id, start_piece := 0, pieces := [], got_ranges := false, mirror := none,
    active := false, range := none, header_hook := false, if_modified_since := none }

/-- The loop `for (int i = 0; i < count; i++)` of `download`, with `n`
iterations left: each one sets up a new slot and appends it to `downloads`
when `setupDownload` succeeds.  `id` is the address of the next new slot. -/
def seedSlots : Nat → Nat → IDownload → List DownloadData →
    Option (IDownload × List DownloadData)
  | 0, _, d, downloads => some (d, downloads)
  | n + 1, id, d, downloads =>
    match setupDownload d (newDownloadData id) with
    | none => none
    | some (true, d1, dlData) => seedSlots n (id + 1) d1 (downloads ++ [dlData])
    | some (false, d1, _) => seedSlots n (id + 1) d1 downloads

/-- The body of the first loop of `download` for one download `dl` that is not
finished and of type HTTP: `none` stands for the `return false` on a download
without mirrors and on a file that cannot be opened (and for an undefined step
of `setupDownload`), otherwise the download and the slots appended to
`downloads`. -/
def seedDownload (max_parallel : Int) (dl : IDownload) (id : Nat) :
    Option (IDownload × List DownloadData) :=
  if dl.getMirrorCount ≤ 0 then none
  else if dl.file_null ∧ dl.file.Open dl.name dl.size dl.piecesize = false then none
  else
    seedSlots (parallelCount max_parallel dl).toNat id
      { dl with parallel_downloads := parallelCount max_parallel dl, file_null := false } []

/-! ## The transfer loop of `download` -/

/-- A message `CURLMSG_DONE` of curl: the easy handle it names (by the id of
the slot that owns the handle), whether `msg->data.result` is `CURLE_OK`, and
the download speed that curl reports for the transfer. -/
structure CurlMsg where
  handle : Nat
  ok : Bool
  dlSpeed : Nat
  deriving DecidableEq, Repr

/-- What curl does in one round of the loop of `download`: whether the value
of `ret` is `CURLM_OK` when the inner loop on `curl_multi_perform` ends, the
number it stores in `running`, and the messages that become available to
`curl_multi_info_read`. -/
structure PerformStep where
  ret_ok : Bool
  running : Int
  msgs : List CurlMsg
  deriving DecidableEq, Repr

/-- The loop of `getDataByHandle`, at position `i`: the position of the first
slot that is active and owns the handle. -/
def getDataByHandleFrom : List DownloadData → Nat → Nat → Option Nat
  | [], _, _ => none
  | data :: rest, i, handle =>
    if data.active = false then getDataByHandleFrom rest (i + 1) handle
    else if data.id = handle then some i
    else getDataByHandleFrom rest (i + 1) handle

/-- The method `CHttpDownloader::getDataByHandle`. -/
def getDataByHandle (downloads : List DownloadData) (handle : Nat) : Option Nat :=
  getDataByHandleFrom downloads 0 handle

/-- The method `CHttpDownloader::processMessages`, reading the queued messages
in order: the value it returns, the downloads, the slots, and the messages left
in the queue when it returns early.  The local variable `aborted` is
initialised to `false` and never assigned, so the value at the end of the
queue is `false`. -/
def processMessages : List CurlMsg → List IDownload → List DownloadData →
    Option (Bool × List IDownload × List DownloadData × List CurlMsg)
  | [], dls, downloads => some (false, dls, downloads, [])
  | msg :: rest, dls, downloads =>
    match getDataByHandle downloads msg.handle with
    | none => if msg.ok then some (false, dls, downloads, rest) else none
    | some k =>
      match downloads[k]? with
      | none => none
      | some data =>
        match dls[data.download]? with
        | none => none
        | some dl =>
          match processDone msg.ok msg.dlSpeed dl data with
          | none => none
          | some (MsgResult.returned b, dl1, data1) =>
            some (b, dls.set data.download dl1,
              downloads.set k { data1 with download := data.download }, rest)
          | some (MsgResult.next, dl1, data1) =>
            processMessages rest (dls.set data.download dl1)
              (downloads.set k { data1 with download := data.download })

/-- The first loop of `download` over the list, at the download in position
`done.length`: the file of every unfinished HTTP download is opened if it is
not open yet, and its slots are set up.  The flag is `false` for the two
`return false` of the loop, on a download without mirrors and on a file that
cannot be opened (`parallel_downloads` is assigned before the file is opened,
and `dl->file` is null again after the failure).  `id` is the address of the
next new slot. -/
def seedAll (max_parallel : Int) :
    List IDownload → Nat → List IDownload → List DownloadData →
      Option (Bool × List IDownload × List DownloadData)
  | [], _, done, downloads => some (true, done, downloads)
  | dl :: rest, id, done, downloads =>
    if dl.isFinished then seedAll max_parallel rest id (done ++ [dl]) downloads
    else if dl.dltype ≠ DLTYPE.TYP_HTTP then
      seedAll max_parallel rest id (done ++ [dl]) downloads
    else if dl.getMirrorCount ≤ 0 then some (false, done ++ dl :: rest, downloads)
    else if dl.file_null ∧ dl.file.Open dl.name dl.size dl.piecesize = false then
      some (false,
        done ++ { dl with parallel_downloads := parallelCount max_parallel dl } :: rest,
        downloads)
    else
      match seedSlots (parallelCount max_parallel dl).toNat id
          { dl with parallel_downloads := parallelCount max_parallel dl, file_null := false }
          [] with
      | none => none
      | some (dl1, slots) =>
        seedAll max_parallel rest (id + (parallelCount max_parallel dl).toNat) (done ++ [dl1])
          (downloads ++ slots.map (fun s => { s with download := done.length }))

/-- The loop `while (running > 0 && !aborted)` of `download`, one round per
element of the trace of curl: the final value of `aborted`, the downloads and
the slots; `none` when the trace ends before the loop does (or a step is
undefined).  `queue` holds the messages not yet read. -/
def downloadLoop : List PerformStep → Int → Int → Bool → List IDownload →
    List DownloadData → List CurlMsg → Option (Bool × List IDownload × List DownloadData)
  | [], running, _, aborted, dls, downloads, _ =>
    if 0 < running ∧ aborted = false then none else some (aborted, dls, downloads)
  | step :: trace, running, last, aborted, dls, downloads, queue =>
    if 0 < running ∧ aborted = false then
      if step.ret_ok then
        if last ≠ step.running then
          match processMessages (queue ++ step.msgs) dls downloads with
          | none => none
          | some (aborted1, dls1, downloads1, queue1) =>
            downloadLoop trace (wrapInt (step.running + 1)) step.running aborted1 dls1
              downloads1 queue1
        else downloadLoop trace step.running last aborted dls downloads (queue ++ step.msgs)
      else downloadLoop trace step.running last true dls downloads (queue ++ step.msgs)
    else some (aborted, dls, downloads)

/-- The function `VerifySinglePieceDownload`.  Modelled from the spec is the
result of `CFile::Hash(hash)`: it says whether the digest of the whole file is
the expected one. -/
def VerifySinglePieceDownload (dl : IDownload) : IDownload :=
  match dl.hash with
  | none => dl
  | some h =>
    if dl.file_null then dl
    else if dl.file.HashWhole = h then { dl with state := PIECE_STATE.STATE_FINISHED }
    else dl

/-- The method `CHttpDownloader::download`: the value it returns and the
downloads as they are when `CleanupDownloads` is called, for the trace of curl
given.  `CleanupDownloads` closes the files, sets their time stamps and frees
the slots and the files of their downloads; it changes neither the value
returned nor the state of a download or of a piece. -/
def download (max_parallel : Int) (trace : List PerformStep) (dls : List IDownload) :
    Option (Bool × List IDownload) :=
  match seedAll max_parallel dls 0 [] [] with
  | none => none
  | some (false, dls1, _) => some (false, dls1)
  | some (true, dls1, downloads) =>
    if downloads.isEmpty then some (true, dls1)
    else
      match downloadLoop trace 1 (-1) false dls1 downloads [] with
      | none => none
      | some (aborted, dls2, _) => some (!aborted, dls2.map VerifySinglePieceDownload)

/-! ## The driver (pr-downloader.cpp) -/

/-- The file of a download that no downloader has opened yet. -/
def unopenedFile : CFile :=
  { isnewfile := true, size := 0, piecesize := 0, timestamp := -1, disk_sha1 := [],
    disk_md5 := [], written := [] }

/-- Modelled from the spec: the constructor `IDownload(filename, origin_name, cat)`
(Downloader/IDownloader.h is not part of the sources at hand): a download for
HTTP with no pieces, no mirrors, no digest, an unknown size and nothing done
yet. -/
def newIDownload (filename origin_name : String) (cat : Category) : IDownload :=
  { name := filename, dltype := DLTYPE.TYP_HTTP, pieces := [],
    state := PIECE_STATE.STATE_NONE, parallel_downloads := 0, size := -1, piecesize := 0,
    hash := none, mirrors := [], write_only_from := none, file := unopenedFile,
    origin_name := origin_name, cat := cat, file_null := true }

/-- Modelled from the spec: the method `IDownload::addMirror` appends a mirror
with that URL, of unknown health and speed. -/
def IDownload.addMirror (d : IDownload) (url : String) : IDownload :=
  { d with
    mirrors := d.mirrors ++ [{ url := url, status := MirrorStatus.STATUS_UNKNOWN, speed := 0 }] }

/-- Modelled from the spec: the method `IDownload::addDepend` appends a name to
the list of dependencies. -/
def IDownload.addDepend (d : IDownload) (dep : String) : IDownload :=
  { d with depend := d.depend ++ [dep] }

/-- The loop of `GetIDownloadByID`, at the position `pos` of the iterator. -/
def GetIDownloadByIDFrom : List IDownload → Int → Int → Option IDownload
  | [], _, _ => none
  | dl :: rest, pos, id =>
    if pos = id then some dl else GetIDownloadByIDFrom rest (pos + 1) id

/-- The function `GetIDownloadByID`; `none` is the null pointer it returns when
no position equals `id`. -/
def GetIDownloadByID (dllist : List IDownload) (id : Int) : Option IDownload :=
  GetIDownloadByIDFrom dllist 0 id

/-- The two global lists of pr-downloader.cpp: the search results and the ids
queued for download. -/
structure Driver where
  searchres : List IDownload
  downloads : List Int
  deriving DecidableEq, Repr

/-- The function `DownloadAddByUrl`: the `int` it returns and the globals after
the call. -/
def DownloadAddByUrl (cat : Category) (filename url : String) (st : Driver) : Int × Driver :=
  (wrapInt ((st.searchres ++ [(newIDownload filename url cat).addMirror url]).length : Int),
    { st with searchres := st.searchres ++ [(newIDownload filename url cat).addMirror url] })

/-- The function `DownloadAdd`.  Its parameter is an `unsigned int`: the
argument `id` of the caller is converted modulo `2^32`, and compared with the
size of `searchres`; the id is stored as an `int`. -/
def DownloadAdd (id : Int) (st : Driver) : Bool × Driver :=
  if st.searchres.length < (id % 4294967296).toNat then (false, st)
  else (true, { st with downloads := st.downloads ++ [wrapInt (id % 4294967296)] })

/-- The first loop of `DownloadStart`: the sum `dlsize` (an `unsigned long`, of
64 bits) of the positive sizes and the list `dls`; `none` when an id resolves
to the null pointer, which `dl->size` dereferences before the test for it. -/
def queuedDownloads (searchres : List IDownload) :
    List Int → Nat → List IDownload → Option (Nat × List IDownload)
  | [], dlsize, dls => some (dlsize, dls)
  | id :: rest, dlsize, dls =>
    match GetIDownloadByID searchres id with
    | none => none
    | some dl =>
      queuedDownloads searchres rest
        (if 0 < dl.size then (dlsize + dl.size.toNat) % 18446744073709551616 else dlsize)
        (dls ++ [dl])

/-- The last loop of `DownloadStart`: `res` becomes 2 when a download is not
`FINISHED`. -/
def unfinishedCode : List IDownload → Int → Int
  | [], res => res
  | dl :: rest, res =>
    unfinishedCode rest (if dl.state ≠ PIECE_STATE.STATE_FINISHED then 2 else res)

/-- The function `dlListContains`. -/
def dlListContains : List IDownload → String → Bool
  | [], _ => false
  | dl :: rest, name => if dl.name = name then true else dlListContains rest name

/-- The innermost loop of `addDepends`: every search result whose name is not
yet in `dls` is appended to it. -/
def addNewDepends : List IDownload → List IDownload → List IDownload
  | dls, [] => dls
  | dls, newdep :: rest =>
    addNewDepends (if dlListContains dls newdep.name then dls else dls ++ [newdep]) rest

/-- The middle loop of `addDepends`, over the dependencies of one download.
`search` gives the list that `search(DownloadEnum::CAT_COUNT, depend, depends)`
fills from the network. -/
def addDependsOf (search : String → List IDownload) :
    List String → List IDownload → List IDownload
  | [], dls => dls
  | depend :: rest, dls => addDependsOf search rest (addNewDepends dls (search depend))

/-- The outer loop of `addDepends`, with the iterator at position `i`: it also
visits the downloads that the loop appends.  `fuel` bounds the number of
downloads visited; `none` when it does not suffice. -/
def addDependsFrom (search : String → List IDownload) :
    Nat → Nat → List IDownload → Option (List IDownload)
  | 0, i, dls =>
    match dls[i]? with
    | none => some dls
    | some _ => none
  | fuel + 1, i, dls =>
    match dls[i]? with
    | none => some dls
    | some dl => addDependsFrom search fuel (i + 1) (addDependsOf search dl.depend dls)

/-- The function `addDepends`: the list `dls` after the call. -/
def addDepends (search : String → List IDownload) (fuel : Nat) (dls : List IDownload) :
    Option (List IDownload) :=
  addDependsFrom search fuel 0 dls

/-- The function `DownloadStart`.  `MBsFree` is what `CFileSystem::getMBsFree`
reports, `fetchDepends` the flag of that name, `search` and `fuel` are those of
`addDepends`, and `run` is the effect on the list of the three downloaders
called in turn (`rapidDownload->download`, `httpDownload->download(dls, 1)`,
`download_engine`).  The result is `none` when an id resolves to the null
pointer or the fuel does not suffice. -/
def DownloadStart (MBsFree : Nat) (fetchDepends : Bool) (search : String → List IDownload)
    (fuel : Nat) (run : List IDownload → List IDownload) (st : Driver) : Option Int :=
  match queuedDownloads st.searchres st.downloads 0 [] with
  | none => none
  | some (dlsize, dls) =>
    if MBsFree < dlsize / (1024 * 1024) + 1024 then some 5
    else
      match (if fetchDepends then addDepends search fuel dls else some dls) with
      | none => none
      | some dls1 =>
        if dls1.isEmpty then some 1
        else some (unfinishedCode (run dls1) 0)

/-- The sum of the positive sizes of a list of downloads. -/
def totalPositiveSize : List IDownload → Nat
  | [] => 0
  | dl :: rest => (if 0 < dl.size then dl.size.toNat else 0) + totalPositiveSize rest

/-- The exit code of the driver in the words of the specification: 5 when
fewer than `floor(total_size / 2^20) + 1024` MiB are free, else 1 when there
is nothing to do, else 2 when some download is unfinished after the
downloaders ran, else 0. -/
def exitCodeReference (free_MiB : Nat) (queued expanded after : List IDownload) : Int :=
  if free_MiB < totalPositiveSize queued / 2 ^ 20 + 1024 then 5
  else if expanded = [] then 1
  else if ∃ dl ∈ after, dl.state ≠ PIECE_STATE.STATE_FINISHED then 2
  else 0

/-! ## Parsing the search result (`ParseResult`) -/

/-- A value of the JSON library (`Json::Value`).  Numbers are modelled by
`int` for the integral ones and `real` for the others; an object is the list
of its members. -/
inductive JsonValue
  | null
  | bool (b : Bool)
  | int (n : Int)
  | real
  | string (s : String)
  | array (elems : List JsonValue)
  | object (members : List (String × JsonValue))

/-- The test `isString()`. -/
def JsonValue.isString : JsonValue → Bool
  | JsonValue.string _ => true
  | _ => false

/-- The conversion `asString()` of a string value. -/
def JsonValue.asString : JsonValue → String
  | JsonValue.string s => s
  | _ => ""

/-- The test `isArray()`. -/
def JsonValue.isArray : JsonValue → Bool
  | JsonValue.array _ => true
  | _ => false

/-- The elements of an array value. -/
def JsonValue.elems : JsonValue → List JsonValue
  | JsonValue.array l => l
  | _ => []

/-- The test `isObject()`. -/
def JsonValue.isObject : JsonValue → Bool
  | JsonValue.object _ => true
  | _ => false

/-- The test `isInt()`: an integral number in the range of `int`. -/
def JsonValue.isInt : JsonValue → Bool
  | JsonValue.int n => decide (-2147483648 ≤ n ∧ n ≤ 2147483647)
  | _ => false

/-- The conversion `asInt()` of a value for which `isInt()` holds. -/
def JsonValue.asInt : JsonValue → Int
  | JsonValue.int n => n
  | _ => 0

/-- The lookup of a member in the member list of an object. -/
def lookupMember : List (String × JsonValue) → String → JsonValue
  | [], _ => JsonValue.null
  | (k, v) :: rest, key => if k = key then v else lookupMember rest key

/-- The access `value["key"]` on a constant object: the member, or the null
value when there is none. -/
def JsonValue.member (v : JsonValue) (key : String) : JsonValue :=
  match v with
  | JsonValue.object members => lookupMember members key
  | _ => JsonValue.null

/-- What `ParseResult` takes from its surroundings, none of it part of the
sources at hand: `fileSystem->getSpringDir()`, the macro `PATH_DELIMITER`,
`CFileSystem::EscapeFilename`, `DownloadEnum::getCatFromStr`, and the digest
that `HashMD5::Set` makes of a hexadecimal string. -/
structure ParseEnv where
  springDir : String
  pathDelimiter : String
  escapeFilename : String → String
  getCatFromStr : String → Category
  md5Set : String → Digest

/-- The strings among the elements of a JSON array, in order: the loops over
`mirrors` and `depends` of `ParseResult` skip every other element. -/
def stringElems : List JsonValue → List String
  | [] => []
  | JsonValue.string s :: rest => s :: stringElems rest
  | _ :: rest => stringElems rest

/-- The directory that `ParseResult` appends for a category: `maps`, `games`,
`engine`, or nothing (after `LOG_ERROR("Unknown Category ...")`) for any other
category. -/
def categoryDir (category : String) : String :=
  if category = "map" then "maps"
  else if category = "game" then "games"
  else if "engine".toList.isPrefixOf category.toList then "engine"
  else ""

/-- The body of the loop of `ParseResult` for one element `resfile` of the
array: the download it appends to `res`, or `none` for `return false`. -/
def parseEntry (env : ParseEnv) (resfile : JsonValue) : Option IDownload :=
  if resfile.isObject = false then none
  else if (resfile.member "category").isString = false then none
  else if (resfile.member "springname").isString = false then none
  else
    let category := (resfile.member "category").asString
    let springname := (resfile.member "springname").asString
    if (resfile.member "mirrors").isArray = false ∨
        (resfile.member "filename").isString = false then none
    else
      let filename := env.springDir ++ env.pathDelimiter ++ categoryDir category ++
        env.pathDelimiter ++ env.escapeFilename (resfile.member "filename").asString
      let dl0 := newIDownload filename springname (env.getCatFromStr category)
      let dl1 := (stringElems (resfile.member "mirrors").elems).foldl IDownload.addMirror dl0
      let dl2 : IDownload :=
        if (resfile.member "version").isString then
          { dl1 with version := (resfile.member "version").asString }
        else dl1
      let dl3 : IDownload :=
        if (resfile.member "md5").isString then
          { dl2 with hash := some (env.md5Set (resfile.member "md5").asString) }
        else dl2
      let dl4 : IDownload :=
        if (resfile.member "size").isInt then { dl3 with size := (resfile.member "size").asInt }
        else dl3
      let dl5 : IDownload :=
        if (resfile.member "depends").isArray then
          (stringElems (resfile.member "depends").elems).foldl IDownload.addDepend dl4
        else dl4
      some dl5

/-- The loop of `ParseResult` over the elements of the array: the result of
the method and the list `res`. -/
def parseEntries (env : ParseEnv) : List JsonValue → List IDownload → Bool × List IDownload
  | [], res => (true, res)
  | resfile :: rest, res =>
    match parseEntry env resfile with
    | none => (false, res)
    | some dl => parseEntries env rest (res ++ [dl])

/-- The method `CHttpDownloader::ParseResult`.  `json` is the value that
`reader.parse` makes of the text, `none` when the text does not parse. -/
def ParseResult (env : ParseEnv) (json : Option JsonValue) (res : List IDownload) :
    Bool × List IDownload :=
  match json with
  | none => (false, res)
  | some result =>
    if result.isArray = false then (false, res)
    else parseEntries env result.elems res

/-! ## Predicates used in the statements -/

/-- A piece with its state set to `FINISHED`. -/
def piece.finish (p : piece) : piece := { p with state := PIECE_STATE.STATE_FINISHED }

/-- How the walk of `verifyAndGetNextPieces` may change a piece: the SHA-1 is
kept, and the state is kept or goes from `NONE` to `FINISHED`. -/
def walkStep (p p1 : piece) : Prop :=
  p1.sha = p.sha ∧
    (p1.state = p.state ∨
      (p.state = PIECE_STATE.STATE_NONE ∧ p1.state = PIECE_STATE.STATE_FINISHED))

/-- The bytes of piece `j` on disk hash to its expected SHA-1, when one is set. -/
def onDiskOk (d : IDownload) (j : Nat) : Prop :=
  ∀ (p : piece) (h : Digest), d.pieces[j]? = some p → p.sha = some h → d.file.Hash j = some h

/-- Piece `j` of `d1` is `FINISHED` and has the SHA-1 and the bytes on disk it
has in `d`. -/
def keepsFinished (d d1 : IDownload) (j : Nat) : Prop :=
  d1.file = d.file ∧
    ∃ p p1, d.pieces[j]? = some p ∧ d1.pieces[j]? = some p1 ∧ p1.sha = p.sha ∧
      p1.state = PIECE_STATE.STATE_FINISHED

/-- The function `clamp(x, lo, hi)` of the specification. -/
def clamp (x lo hi : Int) : Int :=
  if x < lo then lo else if hi < x then hi else x

/-! ## Concrete downloads used by the evaluations below -/

/-- Two fresh mirrors. -/
def twoMirrors : List Mirror :=
  [{ url := "http://a.example/f", status := MirrorStatus.STATUS_UNKNOWN, speed := 0 },
   { url := "http://b.example/f", status := MirrorStatus.STATUS_UNKNOWN, speed := 0 }]

/-- A file of `n` pieces of one million bytes each, of total size `size`, whose
pieces on disk hash to `sha`. -/
def fileOf (isnew : Bool) (size : Int) (sha : List Digest) : CFile :=
  { isnewfile := isnew, size := size, piecesize := 1000000, timestamp := -1,
    disk_sha1 := sha, disk_md5 := [], written := [] }

/-- A download over `fileOf` with two mirrors; piece `i` expects the SHA-1
`[i + 1]`. -/
def downloadOf (states : List PIECE_STATE) (parallel : Int) (file : CFile) : IDownload :=
  { name := "f", dltype := DLTYPE.TYP_HTTP,
    pieces := states.enum.map (fun x => { sha := some [x.1 + 1], state := x.2 }),
    state := PIECE_STATE.STATE_NONE, parallel_downloads := parallel,
    size := file.size, piecesize := 1000000, hash := none, mirrors := twoMirrors,
    write_only_from := none, file := file }

/-- Two pieces on two slots: piece 0 is downloaded and verified, piece 1 is
still in flight in the other slot. -/
def oneStillDownloading : IDownload :=
  downloadOf [PIECE_STATE.STATE_FINISHED, PIECE_STATE.STATE_DOWNLOADING] 2
    (fileOf true 2000000 [[1], [0]])

/-- Two pieces on two slots, both in flight; the bytes of piece 1 are complete
on disk, those of piece 0 are not yet. -/
def bothDownloading : IDownload :=
  downloadOf [PIECE_STATE.STATE_DOWNLOADING, PIECE_STATE.STATE_DOWNLOADING] 2
    (fileOf true 2000000 [[0], [2]])

/-- The slot of `bothDownloading` that fetches piece 1 from the second mirror. -/
def slotOfPieceOne : DownloadData :=
  { id := 2, start_piece := 1, pieces := [1], got_ranges := true, mirror := some 1,
    active := true, range := some "1000000-1999999", header_hook := true,
    if_modified_since := none }

/-- A two-piece download that the slot with id 1 has latched for single-writer
mode. -/
def latchedDownload : IDownload :=
  { downloadOf [PIECE_STATE.STATE_DOWNLOADING, PIECE_STATE.STATE_DOWNLOADING] 2
      (fileOf true 2000000 []) with write_only_from := some 1 }

/-- The other slot of `latchedDownload`, before its first write: it has seen no
`Content-Range` header either. -/
def otherSlotNoRanges : DownloadData :=
  { id := 2, start_piece := 1, pieces := [1], got_ranges := false, mirror := some 1,
    active := true, range := some "1000000-1999999", header_hook := true,
    if_modified_since := none }

/-- Four pieces: 0 and 1 are verified on disk, 2 and 3 are in flight in one
slot and not yet complete on disk. -/
def tailInFlight : IDownload :=
  downloadOf
    [PIECE_STATE.STATE_FINISHED, PIECE_STATE.STATE_FINISHED,
     PIECE_STATE.STATE_DOWNLOADING, PIECE_STATE.STATE_DOWNLOADING] 2
    (fileOf false 4000000 [[1], [2], [0], [0]])

/-- The slot of `tailInFlight` that fetches pieces 2 and 3 from the second
mirror. -/
def slotOfTail : DownloadData :=
  { id := 2, start_piece := 2, pieces := [2, 3], got_ranges := true, mirror := some 1,
    active := true, range := some "2000000-3999999", header_hook := true,
    if_modified_since := none }

/-- Three pieces for 2,500,000 bytes (the last piece is short): piece 0 is
verified, pieces 1 and 2 are missing on disk; one slot. -/
def shortTail : IDownload :=
  downloadOf
    [PIECE_STATE.STATE_FINISHED, PIECE_STATE.STATE_NONE, PIECE_STATE.STATE_NONE] 1
    (fileOf false 2500000 [[1], [0], [0]])

/-- The slot that `setupDownload` makes of a new slot for `shortTail`. -/
def shortTailSlot : DownloadData :=
  { id := 1, start_piece := 1, pieces := [1, 2], got_ranges := false, mirror := some 0,
    active := true, range := some "1000000-2999999", header_hook := true,
    if_modified_since := none }

/-- The download `shortTail` after that call of `setupDownload`. -/
def shortTailAfter : IDownload :=
  downloadOf
    [PIECE_STATE.STATE_FINISHED, PIECE_STATE.STATE_DOWNLOADING, PIECE_STATE.STATE_DOWNLOADING] 1
    (fileOf false 2500000 [[1], [0], [0]])

/-- Three pieces of one million bytes, all in flight on two slots. -/
def threeInFlight : IDownload :=
  downloadOf
    [PIECE_STATE.STATE_DOWNLOADING, PIECE_STATE.STATE_DOWNLOADING,
     PIECE_STATE.STATE_DOWNLOADING] 2
    (fileOf true 3000000 [])

/-- The slot of `threeInFlight` that fetches pieces 0 and 1, before any header
of the response has arrived. -/
def slotOfHead : DownloadData :=
  { id := 1, start_piece := 0, pieces := [0, 1], got_ranges := false, mirror := some 0,
    active := true, range := some "0-1999999", header_hook := true,
    if_modified_since := none }

/-- The seed scenario: 3,000,000 bytes in three pieces of 1,000,000, nothing
on disk (a new file), two mirrors; `download` has not yet set the number of
parallel transfers. -/
def happyMultiPiece : IDownload :=
  downloadOf [PIECE_STATE.STATE_NONE, PIECE_STATE.STATE_NONE, PIECE_STATE.STATE_NONE] 0
    (fileOf true 3000000 [])

/-- A download of a former run: the three pieces are on disk with the right
bytes; one of them is already marked `FINISHED`. -/
def resumedDownload : IDownload :=
  downloadOf [PIECE_STATE.STATE_NONE, PIECE_STATE.STATE_FINISHED, PIECE_STATE.STATE_NONE] 2
    (fileOf false 3000000 [[1], [2], [3]])

/-- A download whose state is `FINISHED` while its piece, although right on
disk, is still marked `NONE`. -/
def finishedWithPieceNone : IDownload :=
  { downloadOf [PIECE_STATE.STATE_NONE] 1 (fileOf false 1000000 [[1]]) with
    state := PIECE_STATE.STATE_FINISHED }

/-- Two pieces: piece 0 is marked `FINISHED` but its bytes on disk no longer
match, piece 1 is in flight and complete on disk. -/
def staleHead : IDownload :=
  downloadOf [PIECE_STATE.STATE_FINISHED, PIECE_STATE.STATE_DOWNLOADING] 2
    (fileOf false 2000000 [[0], [2]])

/-- The slot of `staleHead` whose piece range is `[0]`. -/
def slotOfPieceZero : DownloadData :=
  { id := 1, start_piece := 0, pieces := [0], got_ranges := true, mirror := some 0,
    active := true, range := some "0-999999", header_hook := true,
    if_modified_since := none }

/-- Four pieces: piece 2, the first piece of the slot that fetches pieces 2 and
3, has already been marked `FINISHED`. -/
def startVerified : IDownload :=
  downloadOf
    [PIECE_STATE.STATE_FINISHED, PIECE_STATE.STATE_FINISHED,
     PIECE_STATE.STATE_FINISHED, PIECE_STATE.STATE_DOWNLOADING] 2
    (fileOf false 4000000 [[1], [2], [3], [0]])

/-- Two pieces of one million bytes, nothing on disk, two mirrors. -/
def twoPieceJob : IDownload :=
  downloadOf [PIECE_STATE.STATE_NONE, PIECE_STATE.STATE_NONE] 0 (fileOf true 2000000 [])

/-- The download `twoPieceJob` before `download` has opened its file, in a
place where the file cannot be opened. -/
def unopenableJob : IDownload :=
  { twoPieceJob with file_null := true, file := { twoPieceJob.file with open_ok := false } }

/-- What curl reports when the abort flag is set while the two slots of
`twoPieceJob` are in flight: `curl_multi_perform` keeps returning `CURLM_OK`;
both transfers end with an error because a callback returned the abort value,
as do the two transfers that are then set up on the second mirror. -/
def abortedTrace : List PerformStep :=
  [{ ret_ok := true, running := 0,
     msgs := [{ handle := 0, ok := false, dlSpeed := 0 },
              { handle := 1, ok := false, dlSpeed := 0 }] },
   { ret_ok := true, running := 2, msgs := [] },
   { ret_ok := true, running := 0,
     msgs := [{ handle := 0, ok := false, dlSpeed := 0 },
              { handle := 1, ok := false, dlSpeed := 0 }] },
   { ret_ok := true, running := 0, msgs := [] }]

/-- The driver with nothing found and nothing queued. -/
def emptyDriver : Driver := { searchres := [], downloads := [] }

/-- A game of 3 MiB that depends on the map `B`. -/
def gameA : IDownload :=
  { newIDownload "games/a.sdz" "A" Category.CAT_GAME with size := 3145728, depend := ["B"] }

/-- The map `B`, of 1 MiB. -/
def mapB : IDownload :=
  { newIDownload "maps/b.sd7" "B" Category.CAT_MAP with size := 1048576 }

/-- The driver after a search found `gameA` and it was queued with its id 0. -/
def driverWithGame : Driver := { searchres := [gameA], downloads := [0] }

/-- A search service that knows the map `B` only. -/
def searchForB (name : String) : List IDownload := if name = "B" then [mapB] else []

/-- Downloaders that finish every download. -/
def finishAll (dls : List IDownload) : List IDownload :=
  dls.map (fun d => { d with state := PIECE_STATE.STATE_FINISHED })

/-- Surroundings for `ParseResult`: file names are kept as they are, and the
categories `map` and `game` are known. -/
def sampleEnv : ParseEnv :=
  { springDir := "/home/u/.spring", pathDelimiter := "/", escapeFilename := fun s => s,
    getCatFromStr := fun s =>
      if s = "map" then Category.CAT_MAP else if s = "game" then Category.CAT_GAME
      else Category.CAT_NONE,
    md5Set := fun s => s.toList.map Char.toNat }

/-- A search result with two entries: one of the unknown category `tool`, one
of the category `map`. -/
def sampleResult : JsonValue :=
  JsonValue.array
    [JsonValue.object
      [("category", JsonValue.string "tool"), ("springname", JsonValue.string "Some Tool"),
       ("filename", JsonValue.string "tool.zip"),
       ("mirrors", JsonValue.array [JsonValue.string "http://a.example/tool.zip"])],
     JsonValue.object
      [("category", JsonValue.string "map"), ("springname", JsonValue.string "Some Map"),
       ("filename", JsonValue.string "some_map.sd7"),
       ("mirrors", JsonValue.array [JsonValue.string "http://a.example/some_map.sd7"]),
       ("size", JsonValue.int 12345)]]

/-- Four pieces on two slots: pieces 0 and 2 are to be fetched, pieces 1 and 3
are in flight. -/
def gapInRun : IDownload :=
  downloadOf
    [PIECE_STATE.STATE_NONE, PIECE_STATE.STATE_DOWNLOADING,
     PIECE_STATE.STATE_NONE, PIECE_STATE.STATE_DOWNLOADING] 2
    (fileOf true 4000000 [])

/-! ## Theorems -/

open PIECE_STATE MirrorStatus

/-- C1 (the code at the failing input): with piece 0 `FINISHED` and piece 1
still `DOWNLOADING` in the other slot, `verifyAndGetNextPieces` selects nothing
and sets the state of the download to `FINISHED`, although piece 1 is not
`FINISHED`. -/
theorem verifyAndGetNextPieces_finishes_while_downloading :
    (verifyAndGetNextPieces oneStillDownloading).map
        (fun r => (r.1, r.2.state, r.2.pieces.map piece.state)) =
      some ([], PIECE_STATE.STATE_FINISHED,
        [PIECE_STATE.STATE_FINISHED, PIECE_STATE.STATE_DOWNLOADING]) := by
  decide

/-- C2 (the code at the failing input): when the slot with piece range `[1]`
completes, `VerifyPieces` hashes piece 0 (its loop counter) and not piece 1:
piece 0, outside the range, goes from `DOWNLOADING` to `NONE` and the mirror of
the slot becomes `BROKEN`, while piece 1, whose bytes on disk match, stays
`DOWNLOADING`. -/
theorem VerifyPieces_checks_loop_counter_not_range :
    bothDownloading.file.Hash 1 = some [2] ∧
    (VerifyPieces slotOfPieceOne bothDownloading).map
        (fun d => (d.pieces.map piece.state, d.mirrors.map Mirror.status)) =
      some ([PIECE_STATE.STATE_NONE, PIECE_STATE.STATE_DOWNLOADING],
        [MirrorStatus.STATUS_UNKNOWN, MirrorStatus.STATUS_BROKEN]) := by
  decide

/-- C3 (the code at the failing input): after slot 1 has latched the download,
the first write of slot 2, which has `got_ranges == false`, moves the latch to
slot 2 and writes its four bytes to the file at piece 0. -/
theorem multi_write_data_relatches :
    latchedDownload.write_only_from = some 1 ∧
    (multi_write_data false [7, 7, 7, 7] 1 4 latchedDownload otherSlotNoRanges).1 = 4 ∧
    (multi_write_data false [7, 7, 7, 7] 1 4 latchedDownload otherSlotNoRanges).2.1.write_only_from
      = some 2 ∧
    (multi_write_data false [7, 7, 7, 7] 1 4 latchedDownload otherSlotNoRanges).2.1.file.written
      = [(0, [7, 7, 7, 7])] := by
  decide

/-- C4 (the code at the failing input): the slot with piece range `[2, 3]`
ends with an error.  The error branch reverts piece 2 only; piece 3 is still
`DOWNLOADING` after it, and also after the whole handling of the message, in
which the slot is set up again for piece 2 alone. -/
theorem processMessages_error_reverts_start_piece_only :
    (processError slotOfTail tailInFlight).map
        (fun d => (d.pieces.map piece.state, d.mirrors.map Mirror.status)) =
      some ([PIECE_STATE.STATE_FINISHED, PIECE_STATE.STATE_FINISHED,
          PIECE_STATE.STATE_NONE, PIECE_STATE.STATE_DOWNLOADING],
        [MirrorStatus.STATUS_UNKNOWN, MirrorStatus.STATUS_BROKEN]) ∧
    (processDone false 0 tailInFlight slotOfTail).map
        (fun r => (r.2.1.pieces.map piece.state, r.2.2.pieces, r.2.2.range)) =
      some ([PIECE_STATE.STATE_FINISHED, PIECE_STATE.STATE_FINISHED,
          PIECE_STATE.STATE_DOWNLOADING, PIECE_STATE.STATE_DOWNLOADING],
        [2], some "2000000-2999999") := by
  decide

/-! ### Auxiliary facts -/

theorem wrapInt_of_fits (x : Int) (h0 : -2147483648 ≤ x) (h1 : x ≤ 2147483647) :
    wrapInt x = x := by
  unfold wrapInt; omega

theorem strtolValue_of_fits (x : Int) (h0 : -9223372036854775808 ≤ x)
    (h1 : x ≤ 9223372036854775807) : strtolValue x = x := by
  unfold strtolValue
  rw [if_neg (by omega), if_neg (by omega)]

theorem rangeStart_rangeEnd_eq (p0 k ps : Int) (h0 : 0 ≤ p0) (hk : 1 ≤ k) (hps : 1 ≤ ps)
    (hfit : p0 * ps + k * ps - 1 ≤ 2147483647) :
    rangeStart p0 ps = p0 * ps ∧ rangeEnd p0 k ps = p0 * ps + k * ps - 1 := by
  have ha : 0 ≤ ps * p0 := by positivity
  have hb : 1 ≤ ps * k := by nlinarith
  have e1 : p0 * ps = ps * p0 := by ring
  have e2 : k * ps = ps * k := by ring
  rw [e1, e2] at hfit ⊢
  unfold rangeStart rangeEnd wrapInt
  generalize ps * p0 = a at *
  generalize ps * k = b at *
  omega

theorem nextPiecesLoop_length (file : CFile) (share : Option Nat) (ps : List piece) :
    ∀ (i : Nat) (sel : List Nat) (ps1 : List piece) (sel1 : List Nat),
      nextPiecesLoop file share i ps sel = some (ps1, sel1) → ps1.length = ps.length := by
  induction ps with
  | nil =>
    intro i sel ps1 sel1 h
    simp [nextPiecesLoop] at h
    simp [h.1.symm]
  | cons p rest ih =>
    intro i sel ps1 sel1 h
    have step : ∀ (q : piece) (j : Nat) (sel2 : List Nat),
        Option.map (fun r => (q :: r.1, r.2)) (nextPiecesLoop file share j rest sel2) =
          some (ps1, sel1) → ps1.length = (p :: rest).length := by
      intro q j sel2 hq
      simp only [Option.map_eq_some', Prod.mk.injEq] at hq
      obtain ⟨r, hr, rfl, rfl⟩ := hq
      simp [ih _ _ _ _ hr]
    unfold nextPiecesLoop at h
    split at h
    · split at h
      · cases h; rfl
      · exact step _ _ _ h
    · split at h
      · split at h
        · split at h
          · cases h; rfl
          · exact step _ _ _ h
        · split at h
          · cases h
          · split at h
            · cases h; rfl
            · exact step _ _ _ h
      · exact step _ _ _ h

theorem verifyAndGetNextPieces_frame (d d1 : IDownload) (sel : List Nat)
    (h : verifyAndGetNextPieces d = some (sel, d1)) :
    d1.piecesize = d.piecesize ∧ d1.file = d.file ∧ d1.mirrors = d.mirrors ∧
      d1.hash = d.hash ∧ d1.write_only_from = d.write_only_from ∧
      d1.parallel_downloads = d.parallel_downloads ∧ d1.pieces.length = d.pieces.length := by
  unfold verifyAndGetNextPieces at h
  split at h
  · cases h; simp
  · split at h
    · cases h; simp
    · split at h
      · cases h
      · rename_i ps sel1 hl
        have := nextPiecesLoop_length _ _ _ _ _ _ _ hl
        split at h <;> cases h <;> simp [this]

theorem setPieceState_length (ps ps1 : List piece) (i : Nat) (s : PIECE_STATE)
    (h : setPieceState ps i s = some ps1) : ps1.length = ps.length := by
  unfold setPieceState at h
  split at h
  · cases h
  · cases h; simp

theorem markDownloading_length (sel : List Nat) :
    ∀ (ps ps1 : List piece), markDownloading ps sel = some ps1 → ps1.length = ps.length := by
  induction sel with
  | nil => intro ps ps1 h; simp [markDownloading] at h; simp [h]
  | cons i sel ih =>
    intro ps ps1 h
    unfold markDownloading at h
    split at h
    · cases h
    · rename_i ps2 h2
      rw [ih _ _ h, setPieceState_length _ _ _ _ h2]

/-- What `setupDownload` has done when it hands back a slot with a range
request: the slot has a non-empty piece list that is not the whole file, and
the request is the string of `getRange` for its first piece and its number of
pieces. -/
theorem setupDownload_range (d d2 : IDownload) (piece slot : DownloadData) (r : String)
    (h : setupDownload d piece = some (true, d2, slot)) (hr : slot.range = some r) :
    0 ≤ slot.start_piece ∧ slot.pieces ≠ [] ∧ d2.size = d.file.size ∧
      d2.pieces.length = d.pieces.length ∧
      ¬ (slot.start_piece = 0 ∧ slot.pieces.length = d.pieces.length) ∧
      r = (getRange slot.start_piece (wrapInt (slot.pieces.length : Int)) d.piecesize).2 := by
  unfold setupDownload at h
  split at h
  · cases h
  · rename_i sel d1 hv
    obtain ⟨hps, hfile, -, -, -, -, hlen⟩ := verifyAndGetNextPieces_frame d d1 sel hv
    simp only [] at h
    split at h
    · simp at h
    · split at h
      · simp at h
      · split at h
        · rename_i hc
          split at h
          · simp at h
          · split at h
            · cases h
            · rename_i ps1 hm
              simp only [Option.some.injEq, Prod.mk.injEq] at h
              obtain ⟨-, rfl, rfl⟩ := h
              simp only [] at hr ⊢
              split at hr
              · rename_i hnot
                simp only [Option.some.injEq] at hr
                subst hr
                have hne : sel ≠ [] := by
                  rintro rfl
                  simp at hc
                rw [hlen] at hnot
                refine ⟨hc.2.1, hne, ?_, ?_, hnot, ?_⟩
                · simp [CFile.GetPieceSize, hfile]
                · rw [markDownloading_length _ _ _ hm, hlen]
                · rw [hps]
              · simp at hr
        · simp only [Option.some.injEq, Prod.mk.injEq] at h
          obtain ⟨-, -, rfl⟩ := h
          simp at hr

/-- C5 (counterexample): for the start piece 2147, one piece and a piece size
of 1,000,000 both products, `2147 * 1000000` and `1 * 1000000`, are inside the
range of `int`, but their sum is not: `getRange` prints
`2147000000--2146967297` and not `2147000000-2147999999`, and the two numbers
do not span 1,000,000 bytes.  (It is the request for the last piece of a file
of 2,147,100,000 bytes.) -/
theorem getRange_end_offset_leaves_int :
    ((0 : Int) ≤ 2147 ∧ (1 : Int) ≤ 1 ∧ (1 : Int) ≤ 1000000 ∧
      (2147 : Int) * 1000000 ≤ 2147483647 ∧ (1 : Int) * 1000000 ≤ 2147483647) ∧
    getRange 2147 1 1000000 = (true, "2147000000--2146967297") ∧
    getRange 2147 1 1000000 ≠
      (true, Int.repr (2147 * 1000000) ++ "-" ++ Int.repr (2147 * 1000000 + 1 * 1000000 - 1)) ∧
    rangeEnd 2147 1 1000000 - rangeStart 2147 1000000 + 1 ≠ 1 * 1000000 := by
  decide

/-- C5 (amended): for a start piece `p0 ≥ 0`, a piece count `k ≥ 1` and a piece
size `ps ≥ 1` whose end offset `p0*ps + k*ps - 1` is inside the range of `int`
(at most 2147483647), `getRange` returns true and the string
`<p0*ps>-<p0*ps + k*ps - 1>` in decimal; the two numbers it prints span exactly
`k*ps` bytes, both ends included. -/
theorem getRange_spec (p0 k ps : Int) (h0 : 0 ≤ p0) (hk : 1 ≤ k) (hps : 1 ≤ ps)
    (hfit : p0 * ps + k * ps - 1 ≤ 2147483647) :
    getRange p0 k ps =
      (true, Int.repr (p0 * ps) ++ "-" ++ Int.repr (p0 * ps + k * ps - 1)) ∧
    rangeEnd p0 k ps - rangeStart p0 ps + 1 = k * ps := by
  obtain ⟨hs, he⟩ := rangeStart_rangeEnd_eq p0 k ps h0 hk hps hfit
  refine ⟨?_, ?_⟩
  · simp only [getRange, hs, he]
  · rw [hs, he]; ring

/-- C5 (witness): the third piece of one million bytes is requested as
`2000000-2999999`. -/
theorem getRange_spec_witness :
    ((0 : Int) ≤ 2 ∧ (1 : Int) ≤ 1 ∧ (1 : Int) ≤ 1000000 ∧
      (2 : Int) * 1000000 + 1 * 1000000 - 1 ≤ 2147483647) ∧
    getRange 2 1 1000000 = (true, "2000000-2999999") ∧
    rangeEnd 2 1 1000000 - rangeStart 2 1000000 + 1 = 1 * 1000000 :=
  ⟨by decide,
    (getRange_spec 2 1 1000000 (by decide) (by decide) (by decide) (by decide)).1.trans
      (by decide),
    (getRange_spec 2 1 1000000 (by decide) (by decide) (by decide) (by decide)).2⟩

/-- C6 (counterexample): for a download of 2,500,000 bytes in three pieces of
1,000,000, the slot that gets pieces 1 and 2 (the last piece included, not the
whole file) asks for `1000000-2999999`: the end offset is 2999999 and not
`size - 1 = 2499999`. -/
theorem short_tail_range_end_is_not_size_minus_one :
    (setupDownload shortTail (newDownloadData 1)).map
        (fun r => (r.1, r.2.1.size, r.2.2.pieces, r.2.2.range)) =
      some (true, 2500000, [1, 2], some "1000000-2999999") ∧
    rangeEnd 1 2 1000000 = 2999999 ∧
    rangeEnd 1 2 1000000 ≠ shortTail.size - 1 := by
  decide

/-- C6 (amended): when the size of a download is not a multiple of the piece
size (`piecesize ≥ 1`; its `P` pieces cover the file, and `P * piecesize - 1`
is inside the range of `int`, at most 2147483647), a slot set up with a range
request whose pieces run up to the last piece asks for the bytes up to
`P * piecesize - 1`, the end of a full last piece, which lies beyond
`size - 1`. -/
theorem range_end_of_tail_slot (d d2 : IDownload) (piece slot : DownloadData) (r : String)
    (h : setupDownload d piece = some (true, d2, slot)) (hr : slot.range = some r)
    (hlast : slot.start_piece + (slot.pieces.length : Int) = (d.pieces.length : Int))
    (hps : 1 ≤ d.piecesize)
    (hcover : d2.size ≤ (d.pieces.length : Int) * d.piecesize)
    (hmod : d2.size % d.piecesize ≠ 0)
    (hfit : (d.pieces.length : Int) * d.piecesize - 1 ≤ 2147483647) :
    r = Int.repr (slot.start_piece * d.piecesize) ++ "-" ++
          Int.repr ((d.pieces.length : Int) * d.piecesize - 1) ∧
      d2.size - 1 < (d.pieces.length : Int) * d.piecesize - 1 := by
  obtain ⟨h0, hne, -, -, hnot, hrange⟩ := setupDownload_range d d2 piece slot r h hr
  have hk1 : 1 ≤ (slot.pieces.length : Int) := by
    have : 0 < slot.pieces.length := List.length_pos.mpr hne
    omega
  have hP : (d.pieces.length : Int) ≤ 2147483648 := by nlinarith
  have hk : (slot.pieces.length : Int) ≤ 2147483647 := by
    by_contra hcon
    apply hnot
    constructor <;> omega
  have hw : wrapInt (slot.pieces.length : Int) = (slot.pieces.length : Int) :=
    wrapInt_of_fits _ (by omega) hk
  have hsum : slot.start_piece * d.piecesize + (slot.pieces.length : Int) * d.piecesize =
      (d.pieces.length : Int) * d.piecesize := by
    rw [← hlast]; ring
  obtain ⟨hs, he⟩ := rangeStart_rangeEnd_eq slot.start_piece (slot.pieces.length : Int)
    d.piecesize h0 hk1 hps (by rw [hsum]; exact hfit)
  constructor
  · rw [hrange, hw]
    simp only [getRange, hs, he, hsum]
  · have hneq : d2.size ≠ (d.pieces.length : Int) * d.piecesize := by
      intro heq
      apply hmod
      rw [heq]
      exact Int.mul_emod_left _ _
    omega

/-- C6 (witness): the download of 2,500,000 bytes in three pieces. -/
theorem range_end_of_tail_slot_witness :
    setupDownload shortTail (newDownloadData 1) = some (true, shortTailAfter, shortTailSlot) ∧
    shortTailSlot.range = some "1000000-2999999" ∧
    shortTailAfter.size % shortTail.piecesize ≠ 0 ∧
    ("1000000-2999999" =
        Int.repr (shortTailSlot.start_piece * shortTail.piecesize) ++ "-" ++
          Int.repr ((shortTail.pieces.length : Int) * shortTail.piecesize - 1) ∧
      shortTailAfter.size - 1 < (shortTail.pieces.length : Int) * shortTail.piecesize - 1) :=
  ⟨by decide, by decide, by decide,
    range_end_of_tail_slot shortTail shortTailAfter (newDownloadData 1) shortTailSlot
      "1000000-2999999" (by decide) (by decide) (by decide) (by decide) (by decide)
      (by decide) (by decide)⟩

theorem digitChar_isDigit (m : Nat) (h : m < 10) :
    (Nat.digitChar m).isDigit = true ∧ (Nat.digitChar m).toNat - 48 = m := by
  interval_cases m <;> decide

theorem toDigitsCore_append (b : Nat) :
    ∀ (fuel n : Nat) (ds : List Char),
      Nat.toDigitsCore b fuel n ds = Nat.toDigitsCore b fuel n [] ++ ds := by
  intro fuel
  induction fuel with
  | zero => intro n ds; simp [Nat.toDigitsCore]
  | succ f ih =>
    intro n ds
    simp only [Nat.toDigitsCore]
    split
    · simp
    · rw [ih (n / b) (_ :: ds), ih (n / b) [_]]
      simp

theorem toDigitsCore_digits :
    ∀ (fuel n : Nat), n < fuel →
      (∀ c ∈ Nat.toDigitsCore 10 fuel n [], c.isDigit = true) ∧
      digitsVal (Nat.toDigitsCore 10 fuel n []) 0 = n ∧
      Nat.toDigitsCore 10 fuel n [] ≠ [] := by
  intro fuel
  induction fuel with
  | zero => intro n h; omega
  | succ f ih =>
    intro n h
    have hd := digitChar_isDigit (n % 10) (Nat.mod_lt _ (by decide))
    simp only [Nat.toDigitsCore]
    split
    · rename_i h0
      have hn : n % 10 = n := by omega
      refine ⟨?_, ?_, by simp⟩
      · intro c hc
        simp only [List.mem_singleton] at hc
        rw [hc]; exact hd.1
      · simp only [digitsVal, List.foldl_cons, List.foldl_nil]
        rw [hd.2]; omega
    · rename_i h0
      rw [toDigitsCore_append]
      obtain ⟨h1, h2, h3⟩ := ih (n / 10) (by omega)
      refine ⟨?_, ?_, by simp [h3]⟩
      · intro c hc
        simp only [List.mem_append, List.mem_singleton] at hc
        rcases hc with hc | hc
        · exact h1 c hc
        · rw [hc]; exact hd.1
      · unfold digitsVal at h2 ⊢
        rw [List.foldl_append, h2]
        simp only [List.foldl_cons, List.foldl_nil]
        rw [hd.2]; omega

theorem isDigit_toNat (c : Char) (hc : c.isDigit = true) : 48 ≤ c.toNat ∧ c.toNat ≤ 57 := by
  simp only [Char.isDigit, Bool.and_eq_true, decide_eq_true_eq] at hc
  obtain ⟨h1, h2⟩ := hc
  have h1' : (48 : UInt32).toNat ≤ c.val.toNat := h1
  have h2' : c.val.toNat ≤ (57 : UInt32).toNat := h2
  exact ⟨h1', h2'⟩

theorem isDigit_not_space (c : Char) (hc : c.isDigit = true) :
    isspaceC c = false ∧ c ≠ '-' ∧ c ≠ '+' ∧ c.toNat ≠ 0 := by
  have h := isDigit_toNat c hc
  refine ⟨?_, ?_, ?_, by omega⟩
  · simp only [isspaceC, Bool.decide_or, Bool.or_eq_false_iff, decide_eq_false_iff_not]
    refine ⟨?_, ?_, ?_, ?_, ?_, ?_⟩
    · rintro rfl; simp at hc
    · rintro rfl; simp at hc
    · rintro rfl; simp at hc
    · rintro rfl; simp at hc
    · omega
    · omega
  · rintro rfl; simp at hc
  · rintro rfl; simp at hc

theorem scanDigits_append (cs : List Char) (hcs : ∀ c ∈ cs, c.isDigit = true)
    (rest : List Char) (hrest : ∀ c ∈ rest.head?, c.isDigit = false) :
    ∀ acc, scanDigits (cs ++ rest) acc = (digitsVal cs acc, rest) := by
  induction cs with
  | nil =>
    intro acc
    cases rest with
    | nil => simp [scanDigits, digitsVal]
    | cons c r =>
      have : c.isDigit = false := hrest c (by simp)
      simp [scanDigits, digitsVal, this]
  | cons c cs ih =>
    intro acc
    have hc : c.isDigit = true := hcs c (by simp)
    show scanDigits (c :: (cs ++ rest)) acc = _
    rw [scanDigits, if_pos hc, ih (fun x hx => hcs x (by simp [hx]))]
    simp [digitsVal]

theorem repr_data (n : Nat) : (Nat.repr n).toList = Nat.toDigits 10 n := by
  simp [Nat.repr, List.asString, String.toList]

theorem scanInt_digits (c : Char) (cs rest : List Char)
    (hcs : ∀ x ∈ c :: cs, x.isDigit = true)
    (hrest : ∀ x ∈ rest.head?, x.isDigit = false) :
    scanInt (c :: cs ++ rest) =
      some (wrapInt (strtolValue (digitsVal (c :: cs) 0 : Nat)), rest) := by
  have hc : c.isDigit = true := hcs c (by simp)
  obtain ⟨hsp, hm, hp, -⟩ := isDigit_not_space c hc
  have hsd : scanDigits (c :: (cs ++ rest)) 0 = (digitsVal (c :: cs) 0, rest) :=
    scanDigits_append (c :: cs) hcs rest hrest 0
  have hdw : List.dropWhile isspaceC (c :: cs ++ rest) = c :: (cs ++ rest) := by
    simp [List.dropWhile, hsp]
  have hsg : scanSign (c :: (cs ++ rest)) = (false, c :: (cs ++ rest)) := by
    unfold scanSign
    split
    · rename_i heq
      simp only [List.cons.injEq] at heq
      exact absurd heq.1 hm
    · rename_i heq
      simp only [List.cons.injEq] at heq
      exact absurd heq.1 hp
    · rfl
  unfold scanInt
  simp only [hdw, hsg, hc, if_true, hsd]
  simp

theorem scanInt_repr (n : Nat) (rest : List Char)
    (hrest : ∀ c ∈ rest.head?, c.isDigit = false) :
    scanInt ((Nat.repr n).toList ++ rest) = some (wrapInt (strtolValue (n : Int)), rest) := by
  rw [repr_data]
  obtain ⟨h1, h2, h3⟩ := toDigitsCore_digits (n + 1) n (by omega)
  unfold Nat.toDigits
  cases hcs : Nat.toDigitsCore 10 (n + 1) n [] with
  | nil => exact absurd hcs h3
  | cons c cs =>
    rw [hcs] at h1 h2
    rw [scanInt_digits c cs rest h1 hrest, h2]

theorem repr_digits (n : Nat) :
    ∃ c cs, (Nat.repr n).toList = c :: cs ∧ ∀ x ∈ c :: cs, x.isDigit = true := by
  obtain ⟨h1, -, h3⟩ := toDigitsCore_digits (n + 1) n (by omega)
  have e : (Nat.repr n).toList = Nat.toDigitsCore 10 (n + 1) n [] := by
    simp [Nat.repr, List.asString, String.toList, Nat.toDigits]
  cases hcs : Nat.toDigitsCore 10 (n + 1) n [] with
  | nil => exact absurd hcs h3
  | cons c cs => exact ⟨c, cs, by rw [e, hcs], by rw [← hcs]; exact h1⟩

theorem scanLiteral_append (lit rest : List Char) : scanLiteral lit (lit ++ rest) = some rest := by
  induction lit with
  | nil => cases rest <;> simp [scanLiteral]
  | cons c cs ih =>
    show scanLiteral (c :: cs) (c :: (cs ++ rest)) = _
    rw [scanLiteral, if_pos rfl, ih]

theorem dropWhile_isspaceC_repr (n : Nat) (rest : List Char) :
    List.dropWhile isspaceC ((Nat.repr n).toList ++ rest) = (Nat.repr n).toList ++ rest := by
  obtain ⟨c, cs, e, h⟩ := repr_digits n
  rw [e]
  have := (isDigit_not_space c (h c (by simp))).1
  simp [List.dropWhile, this]

theorem sscanfContentRange_chars (S E T : Nat) (rest : List Char)
    (hrest : ∀ c ∈ rest.head?, c.isDigit = false) :
    sscanfContentRange (contentRangeChars S E T rest) =
      [wrapInt (strtolValue (S : Int)), wrapInt (strtolValue (E : Int)),
        wrapInt (strtolValue (T : Int))] := by
  unfold contentRangeChars
  have h3 := scanInt_repr T rest hrest
  generalize (Nat.repr T).toList ++ rest = t3 at h3 ⊢
  have h2 := scanInt_repr E ('/' :: t3) (by simp)
  generalize (Nat.repr E).toList ++ '/' :: t3 = t2 at h2 ⊢
  have h1 := scanInt_repr S ('-' :: t2) (by simp)
  have hd := dropWhile_isspaceC_repr S ('-' :: t2)
  generalize (Nat.repr S).toList ++ '-' :: t2 = t1 at h1 hd ⊢
  unfold sscanfContentRange
  rw [scanLiteral_append]
  simp only []
  have hd1 : List.dropWhile isspaceC (' ' :: ("bytes".toList ++ (' ' :: t1))) =
      "bytes".toList ++ (' ' :: t1) := by
    simp [List.dropWhile, isspaceC]
  rw [hd1, scanLiteral_append]
  simp only []
  have hd2 : List.dropWhile isspaceC (' ' :: t1) = t1 := by
    rw [List.dropWhile_cons_of_pos (by decide), hd]
  rw [hd2, h1]
  simp only [scanLiteral, if_true]
  rw [h2]
  simp only [scanLiteral, if_true]
  rw [h3]

theorem repr_not_nul (n : Nat) : ∀ c ∈ (Nat.repr n).toList, c.toNat ≠ 0 := by
  obtain ⟨c, cs, e, h⟩ := repr_digits n
  intro x hx
  rw [e] at hx
  exact (isDigit_not_space x (h x hx)).2.2.2

theorem headerCStr_contentRangeLine (S E T : Nat) :
    headerCStr (contentRangeLine S E T) (contentRangeLine S E T).length =
      contentRangeChars S E T ['\r'] := by
  have hpre : "Content-Range: bytes ".toList =
      "Content-Range:".toList ++ (' ' :: ("bytes".toList ++ [' '])) := by decide
  have hline : contentRangeLine S E T = contentRangeChars S E T ['\r'] ++ ['\n'] := by
    unfold contentRangeLine contentRangeChars
    rw [hpre]
    simp
  have hnul : ∀ c ∈ contentRangeChars S E T ['\r'], c.toNat ≠ 0 := by
    have l1 : ∀ c ∈ "Content-Range:".toList, c.toNat ≠ 0 := by decide
    have l2 : ∀ c ∈ "bytes".toList, c.toNat ≠ 0 := by decide
    intro c hc
    unfold contentRangeChars at hc
    simp only [List.mem_append, List.mem_cons, List.mem_singleton] at hc
    rcases hc with hc | hc | hc | hc | hc | hc | hc | hc | hc | hc
    · exact l1 c hc
    · rw [hc]; decide
    · exact l2 c hc
    · rw [hc]; decide
    · exact repr_not_nul S c hc
    · rw [hc]; decide
    · exact repr_not_nul E c hc
    · rw [hc]; decide
    · exact repr_not_nul T c hc
    · rcases hc with hc | hc
      · rw [hc]; decide
      · simp at hc
  rw [hline]
  generalize contentRangeChars S E T ['\r'] = X at hnul ⊢
  unfold headerCStr
  have ht : List.take ((X ++ ['\n']).length - 1) (X ++ ['\n']) = X := by
    simp
  rw [ht]
  rw [List.takeWhile_eq_self_iff]
  intro c hc
  simpa using hnul c hc

/-- The decision of `multiHeader` on a chunked download in terms of what
`sscanf` converted from the header line. -/
theorem multiHeader_of_scan (ptr : List Char) (size nmemb : Nat) (d : IDownload)
    (data : DownloadData) (hchunked : d.pieces ≠ [])
    (hline : 0 < size * nmemb ∧ size * nmemb < 18446744073709551616)
    (hpsz : 0 ≤ d.file.GetPiecesSize data.pieces ∧
      d.file.GetPiecesSize data.pieces ≤ 2147483647) :
    (∀ S E T : Int, sscanfContentRange (headerCStr ptr (size * nmemb)) = [S, E, T] →
        0 ≤ S → S ≤ 2147483647 → 0 ≤ E → E ≤ 2147483647 →
        multiHeader ptr size nmemb d data =
          if E - S + 1 ≠ d.file.GetPiecesSize data.pieces then some (CURL_ABORT, data)
          else some (size * nmemb, { data with got_ranges := true })) ∧
    ((sscanfContentRange (headerCStr ptr (size * nmemb))).length ≠ 3 →
        multiHeader ptr size nmemb d data = some (size * nmemb, data)) := by
  have hmod : size * nmemb % 18446744073709551616 = size * nmemb := Nat.mod_eq_of_lt hline.2
  have hne : d.pieces.isEmpty = false := by
    cases hp : d.pieces with
    | nil => exact absurd hp hchunked
    | cons _ _ => rfl
  have hnz : ¬ (size * nmemb = 0) := by omega
  constructor
  · intro S E T hscan hS0 hS1 hE0 hE1
    unfold multiHeader
    simp only [hne, hmod, hscan, hnz, Bool.false_eq_true, if_false]
    have hw : wrapInt (wrapInt (E - S) + 1) ≠ wrapInt (d.file.GetPiecesSize data.pieces) ↔
        E - S + 1 ≠ d.file.GetPiecesSize data.pieces := by
      obtain ⟨h1, h2⟩ := hpsz
      generalize d.file.GetPiecesSize data.pieces = q at *
      unfold wrapInt
      omega
    by_cases hc : E - S + 1 ≠ d.file.GetPiecesSize data.pieces
    · rw [if_pos (hw.mpr hc), if_pos hc]
    · rw [if_neg (fun h => hc (hw.mp h)), if_neg hc]
  · intro hlen
    unfold multiHeader
    simp only [hne, hmod, hnz, Bool.false_eq_true, if_false]
    split
    · rename_i heq
      rw [heq] at hlen
      simp at hlen
    · rfl

theorem scanLiteral_initial_segment (lit : List Char) :
    ∀ (s r : List Char), scanLiteral lit s = some r → lit <+: s := by
  induction lit with
  | nil => intro s r _; exact List.nil_prefix
  | cons c cs ih =>
    intro s r h
    cases s with
    | nil => simp [scanLiteral] at h
    | cons x t =>
      rw [scanLiteral] at h
      split at h
      · rename_i hcx
        subst hcx
        exact (List.prefix_cons_inj c).mpr (ih t r h)
      · cases h

theorem sscanfContentRange_without_literal (buf : List Char)
    (h : ¬ "Content-Range:".toList <+: buf) : sscanfContentRange buf = [] := by
  unfold sscanfContentRange
  split
  · rfl
  · rename_i s1 hs
    exact absurd (scanLiteral_initial_segment _ _ _ hs) h

theorem headerCStr_initial_segment (ptr : List Char) (n : Nat) : headerCStr ptr n <+: ptr :=
  (List.takeWhile_prefix _).trans (List.take_prefix _ _)

theorem contentRangeLine_length (S E T : Nat) : 0 < (contentRangeLine S E T).length := by
  unfold contentRangeLine
  simp

/-- A numeral above `LONG_MAX` is stored as `-1`: with
`E = 18446744073711551615`, which is `2^64 + 1999999`, the header line for the
slot of 2,000,000 bytes is answered by the abort value. -/
theorem multiHeader_saturated_numeral :
    scanInt "18446744073711551615/".toList = some (-1, ['/']) ∧
    multiHeader (contentRangeLine 0 18446744073711551615 3000000) 1 53 threeInFlight
        slotOfHead = some (CURL_ABORT, slotOfHead) := by
  decide

/-- C7 (counterexample): the slot with the two first pieces of one million
bytes each gets the header line `Content-Range: bytes 0-4296967295/4296967296`.
`E - S + 1` is 4296967296 and not the 2,000,000 bytes of the slot's range, yet
`multiHeader` does not abort: it sets `got_ranges` and returns `size * nmemb`,
because `sscanf` stores `E` into an `int`, where it is 1999999. -/
theorem multiHeader_accepts_end_beyond_int :
    threeInFlight.pieces ≠ [] ∧
    threeInFlight.file.GetPiecesSize slotOfHead.pieces = 2000000 ∧
    (contentRangeLine 0 4296967295 4296967296).asString =
      "Content-Range: bytes 0-4296967295/4296967296\r\n" ∧
    (4296967295 : Int) - 0 + 1 ≠ threeInFlight.file.GetPiecesSize slotOfHead.pieces ∧
    slotOfHead.got_ranges = false ∧
    multiHeader (contentRangeLine 0 4296967295 4296967296) 1 46 threeInFlight slotOfHead =
      some (46, { slotOfHead with got_ranges := true }) := by
  decide

/-- C7 (amended): on a chunked download (non-empty piece list; the byte size of the
slot's piece range an `int`), `multiHeader` answers a header line
`Content-Range: bytes S-E/T` (with `S` and `E` in the range of `int`, any `T`,
and the line end that curl passes along) by the abort value with the slot
unchanged when `E - S + 1` differs from the byte size of the slot's piece
range, and by `size * nmemb` with `got_ranges` set otherwise; a header line
that does not begin with `Content-Range:` (or, more generally, that `sscanf`
does not convert into three numbers) leaves the slot unchanged and is answered
by `size * nmemb`. -/
theorem multiHeader_content_range (d : IDownload) (data : DownloadData)
    (hchunked : d.pieces ≠ [])
    (hpsz : 0 ≤ d.file.GetPiecesSize data.pieces ∧
      d.file.GetPiecesSize data.pieces ≤ 2147483647) :
    (∀ (S E T size nmemb : Nat), S ≤ 2147483647 → E ≤ 2147483647 →
        size * nmemb = (contentRangeLine S E T).length →
        size * nmemb < 18446744073709551616 →
        multiHeader (contentRangeLine S E T) size nmemb d data =
          if (E : Int) - (S : Int) + 1 ≠ d.file.GetPiecesSize data.pieces then
            some (CURL_ABORT, data)
          else some (size * nmemb, { data with got_ranges := true })) ∧
    (∀ (ptr : List Char) (size nmemb : Nat),
        0 < size * nmemb → size * nmemb < 18446744073709551616 →
        (¬ "Content-Range:".toList <+: ptr ∨
          (sscanfContentRange (headerCStr ptr (size * nmemb))).length ≠ 3) →
        multiHeader ptr size nmemb d data = some (size * nmemb, data)) := by
  constructor
  · intro S E T size nmemb hS hE hlen hfit
    have hl := contentRangeLine_length S E T
    rw [← hlen] at hl
    have hscan : sscanfContentRange (headerCStr (contentRangeLine S E T) (size * nmemb)) =
        [(S : Int), (E : Int), wrapInt (strtolValue (T : Int))] := by
      rw [hlen, headerCStr_contentRangeLine, sscanfContentRange_chars S E T _ (by decide),
        strtolValue_of_fits (S : Int) (by omega) (by omega),
        strtolValue_of_fits (E : Int) (by omega) (by omega),
        wrapInt_of_fits (S : Int) (by omega) (by omega),
        wrapInt_of_fits (E : Int) (by omega) (by omega)]
    exact (multiHeader_of_scan _ size nmemb d data hchunked ⟨hl, hfit⟩ hpsz).1 S E _ hscan
      (by omega) (by omega) (by omega) (by omega)
  · intro ptr size nmemb h0 h1 hnot
    apply (multiHeader_of_scan ptr size nmemb d data hchunked ⟨h0, h1⟩ hpsz).2
    rcases hnot with hnot | hnot
    · rw [sscanfContentRange_without_literal _
        (fun hp => hnot (hp.trans (headerCStr_initial_segment ptr _)))]
      decide
    · exact hnot

/-- C7 (witness): a slot with the two first pieces of one million bytes gets a
header for 2,000,000 bytes, one for 1,000,000 bytes, and a `Content-Length`
header. -/
theorem multiHeader_content_range_witness :
    threeInFlight.pieces ≠ [] ∧
    threeInFlight.file.GetPiecesSize slotOfHead.pieces = 2000000 ∧
    multiHeader (contentRangeLine 0 1999999 3000000) 1 40 threeInFlight slotOfHead =
      some (40, { slotOfHead with got_ranges := true }) ∧
    multiHeader (contentRangeLine 0 999999 3000000) 1 39 threeInFlight slotOfHead =
      some (CURL_ABORT, slotOfHead) ∧
    multiHeader "Content-Length: 2000000\r\n".toList 1 25 threeInFlight slotOfHead =
      some (25, slotOfHead) :=
  ⟨by decide, by decide,
    ((multiHeader_content_range threeInFlight slotOfHead (by decide) (by decide)).1
      0 1999999 3000000 1 40 (by decide) (by decide) (by decide) (by decide)).trans (by decide),
    ((multiHeader_content_range threeInFlight slotOfHead (by decide) (by decide)).1
      0 999999 3000000 1 39 (by decide) (by decide) (by decide) (by decide)).trans (by decide),
    (multiHeader_content_range threeInFlight slotOfHead (by decide) (by decide)).2
      "Content-Length: 2000000\r\n".toList 1 25 (by decide) (by decide)
      (Or.inl (by decide))⟩

theorem nextPiecesLoop_all_on_disk (file : CFile) (share : Option Nat) (hold : file.isnewfile = false)
    (ps : List piece) :
    ∀ (i : Nat),
      (∀ (j : Nat) (p : piece), ps[j]? = some p →
        p.sha.isSome = true ∧ file.Hash (i + j) = p.sha ∧
          (p.state = STATE_NONE ∨ p.state = STATE_FINISHED)) →
      nextPiecesLoop file share i ps [] = some (ps.map piece.finish, []) := by
  induction ps with
  | nil => intro i _; simp [nextPiecesLoop]
  | cons p rest ih =>
    intro i h
    obtain ⟨hsha, hhash, hst⟩ := h 0 p (by simp)
    have hrest := ih (i + 1) (fun j q hq => by
      have := h (j + 1) q (by simpa using hq)
      rw [show i + (j + 1) = i + 1 + j by omega] at this
      exact this)
    unfold nextPiecesLoop
    rcases hst with hst | hst
    · have hne : ¬ p.state = STATE_FINISHED := by rw [hst]; decide
      rw [if_neg hne, if_pos hst, if_pos ⟨hsha, hold, by simpa using hhash⟩]
      simp [hrest, piece.finish]
    · rw [if_pos hst]
      simp only [List.length_nil, lt_self_iff_false, if_false, hrest, Option.map_some',
        List.map_cons]
      cases p
      simp_all [piece.finish]


theorem walkStep_refl (p : piece) : walkStep p p := ⟨rfl, Or.inl rfl⟩

theorem nextPiecesLoop_states (file : CFile) (share : Option Nat) (ps : List piece) :
    ∀ (i : Nat) (sel : List Nat) (ps1 : List piece) (sel1 : List Nat),
      nextPiecesLoop file share i ps sel = some (ps1, sel1) →
      ∀ (j : Nat) (p : piece), ps[j]? = some p → ∃ p1, ps1[j]? = some p1 ∧ walkStep p p1 := by
  induction ps with
  | nil => intro i sel ps1 sel1 _ j p hp; simp at hp
  | cons q rest ih =>
    intro i sel ps1 sel1 h
    have stay : ∀ (j : Nat) (p : piece), (q :: rest)[j]? = some p →
        ∃ p1, (q :: rest)[j]? = some p1 ∧ walkStep p p1 :=
      fun j p hp => ⟨p, hp, walkStep_refl p⟩
    have step : ∀ (q1 : piece) (i1 : Nat) (sel2 : List Nat), walkStep q q1 →
        Option.map (fun r => (q1 :: r.1, r.2)) (nextPiecesLoop file share i1 rest sel2) =
          some (ps1, sel1) →
        ∀ (j : Nat) (p : piece), (q :: rest)[j]? = some p →
          ∃ p1, ps1[j]? = some p1 ∧ walkStep p p1 := by
      intro q1 i1 sel2 hq hm j p hp
      simp only [Option.map_eq_some', Prod.mk.injEq] at hm
      obtain ⟨r, hr, rfl, rfl⟩ := hm
      cases j with
      | zero =>
        simp only [List.getElem?_cons_zero, Option.some.injEq] at hp
        subst hp
        exact ⟨q1, by simp, hq⟩
      | succ j =>
        simp only [List.getElem?_cons_succ] at hp ⊢
        exact ih _ _ _ _ hr j p hp
    unfold nextPiecesLoop at h
    split at h
    · split at h
      · cases h; exact stay
      · exact step q _ _ (walkStep_refl q) h
    · split at h
      · rename_i hnone
        split at h
        · have hq : walkStep q { q with state := STATE_FINISHED } := ⟨rfl, Or.inr ⟨hnone, rfl⟩⟩
          split at h
          · cases h
            intro j p hp
            cases j with
            | zero =>
              simp only [List.getElem?_cons_zero, Option.some.injEq] at hp
              subst hp
              exact ⟨_, by simp, hq⟩
            | succ j =>
              simp only [List.getElem?_cons_succ] at hp ⊢
              exact ⟨p, hp, walkStep_refl p⟩
          · exact step _ _ _ hq h
        · split at h
          · cases h
          · split at h
            · cases h; exact stay
            · exact step q _ _ (walkStep_refl q) h
      · exact step q _ _ (walkStep_refl q) h

theorem nextPiecesLoop_selected (file : CFile) (share : Option Nat) (ps : List piece) :
    ∀ (i : Nat) (sel : List Nat) (ps1 : List piece) (sel1 : List Nat),
      nextPiecesLoop file share i ps sel = some (ps1, sel1) →
      ∀ k ∈ sel1, k ∈ sel ∨ (i ≤ k ∧ pieceState ps1 (k - i) = some STATE_NONE) := by
  induction ps with
  | nil =>
    intro i sel ps1 sel1 h k hk
    simp only [nextPiecesLoop, Option.some.injEq, Prod.mk.injEq] at h
    rw [← h.2] at hk
    exact Or.inl hk
  | cons q rest ih =>
    intro i sel ps1 sel1 h
    have step : ∀ (q1 : piece) (sel2 : List Nat),
        (∀ k ∈ sel2, k ∈ sel ∨ (k = i ∧ q1.state = STATE_NONE)) →
        Option.map (fun r => (q1 :: r.1, r.2)) (nextPiecesLoop file share (i + 1) rest sel2) =
          some (ps1, sel1) →
        ∀ k ∈ sel1, k ∈ sel ∨ (i ≤ k ∧ pieceState ps1 (k - i) = some STATE_NONE) := by
      intro q1 sel2 hsel hm k hk
      simp only [Option.map_eq_some', Prod.mk.injEq] at hm
      obtain ⟨r, hr, rfl, rfl⟩ := hm
      rcases ih _ _ _ _ hr k hk with h2 | ⟨hle, hst⟩
      · rcases hsel k h2 with h3 | ⟨rfl, h3⟩
        · exact Or.inl h3
        · exact Or.inr ⟨le_refl _, by simp [pieceState, h3]⟩
      · refine Or.inr ⟨by omega, ?_⟩
        have e : k - i = (k - (i + 1)) + 1 := by omega
        rw [e]
        simpa [pieceState] using hst
    unfold nextPiecesLoop at h
    split at h
    · split at h
      · cases h; exact fun k hk => Or.inl hk
      · exact step q sel (fun k hk => Or.inl hk) h
    · split at h
      · rename_i hnone
        split at h
        · split at h
          · cases h; exact fun k hk => Or.inl hk
          · exact step _ sel (fun k hk => Or.inl hk) h
        · have hsel : ∀ k ∈ sel ++ [i], k ∈ sel ∨ (k = i ∧ q.state = STATE_NONE) := by
            intro k hk
            simp only [List.mem_append, List.mem_singleton] at hk
            rcases hk with hk | hk
            · exact Or.inl hk
            · exact Or.inr ⟨hk, hnone⟩
          split at h
          · cases h
          · split at h
            · cases h
              intro k hk
              rcases hsel k hk with h3 | ⟨rfl, h3⟩
              · exact Or.inl h3
              · exact Or.inr ⟨le_refl _, by simp [pieceState, h3]⟩
            · exact step q _ hsel h
      · exact step q sel (fun k hk => Or.inl hk) h


theorem verifyAndGetNextPieces_states (d d1 : IDownload) (sel : List Nat)
    (h : verifyAndGetNextPieces d = some (sel, d1)) :
    (∀ (j : Nat) (p : piece), d.pieces[j]? = some p →
        ∃ p1, d1.pieces[j]? = some p1 ∧ walkStep p p1) ∧
      (∀ k ∈ sel, pieceState d1.pieces k = some STATE_NONE) := by
  unfold verifyAndGetNextPieces at h
  split at h
  · cases h
    exact ⟨fun j p hp => ⟨p, hp, walkStep_refl p⟩, by simp⟩
  · split at h
    · cases h
      exact ⟨fun j p hp => ⟨p, hp, walkStep_refl p⟩, by simp⟩
    · split at h
      · cases h
      · rename_i ps sel1 hl
        have h1 := nextPiecesLoop_states _ _ _ _ _ _ _ hl
        have h2 : ∀ k ∈ sel1, pieceState ps k = some STATE_NONE := by
          intro k hk
          rcases nextPiecesLoop_selected _ _ _ _ _ _ _ hl k hk with h3 | ⟨-, h3⟩
          · simp at h3
          · simpa using h3
        split at h <;> cases h <;> exact ⟨h1, h2⟩

theorem pieceState_walk (ps ps1 : List piece) (j : Nat)
    (h : ∀ (p : piece), ps[j]? = some p → ∃ p1, ps1[j]? = some p1 ∧ walkStep p p1)
    (hfin : pieceState ps j = some STATE_FINISHED) :
    pieceState ps1 j = some STATE_FINISHED := by
  unfold pieceState at hfin ⊢
  cases hp : ps[j]? with
  | none => simp [hp] at hfin
  | some p =>
    rw [hp] at hfin
    simp only [Option.map_some', Option.some.injEq] at hfin
    obtain ⟨p1, hp1, -, hs⟩ := h p hp
    rw [hp1]
    rcases hs with hs | ⟨hs, -⟩
    · simp [hs, hfin]
    · rw [hfin] at hs; cases hs

theorem setPieceState_other (ps ps1 : List piece) (i j : Nat) (s : PIECE_STATE)
    (h : setPieceState ps i s = some ps1) (hij : j ≠ i) : ps1[j]? = ps[j]? := by
  unfold setPieceState at h
  split at h
  · cases h
  · cases h
    exact List.getElem?_set_ne (Ne.symm hij)

theorem markDownloading_other (sel : List Nat) :
    ∀ (ps ps1 : List piece), markDownloading ps sel = some ps1 →
      ∀ j, j ∉ sel → ps1[j]? = ps[j]? := by
  induction sel with
  | nil => intro ps ps1 h j _; simp [markDownloading] at h; rw [h]
  | cons i sel ih =>
    intro ps ps1 h j hj
    unfold markDownloading at h
    split at h
    · cases h
    · rename_i ps2 h2
      simp only [List.mem_cons, not_or] at hj
      rw [ih _ _ h j hj.2, setPieceState_other _ _ _ _ _ h2 hj.1]

theorem setupDownload_keeps_finished (d d2 : IDownload) (piece slot : DownloadData) (b : Bool)
    (h : setupDownload d piece = some (b, d2, slot)) (j : Nat)
    (hfin : pieceState d.pieces j = some STATE_FINISHED) :
    pieceState d2.pieces j = some STATE_FINISHED := by
  unfold setupDownload at h
  split at h
  · cases h
  · rename_i sel d1 hv
    obtain ⟨hw, hsel⟩ := verifyAndGetNextPieces_states d d1 sel hv
    have hfin1 : pieceState d1.pieces j = some STATE_FINISHED :=
      pieceState_walk _ _ j (hw j) hfin
    simp only [] at h
    split at h
    · cases h; exact hfin1
    · split at h
      · cases h; exact hfin1
      · split at h
        · split at h
          · cases h; exact hfin1
          · split at h
            · cases h
            · rename_i ps1 hm
              cases h
              have hj : j ∉ sel := by
                intro hmem
                have := hsel j hmem
                rw [hfin1] at this
                cases this
              show pieceState ps1 j = some STATE_FINISHED
              unfold pieceState at hfin1 ⊢
              rw [markDownloading_other _ _ _ hm j hj]
              exact hfin1
        · cases h; exact hfin1


theorem verifyPieceAt_keepsFinished (data : DownloadData) (d d1 d2 : IDownload) (j idx : Nat)
    (hk : keepsFinished d d1 j) (hok : idx = j → onDiskOk d j)
    (h : verifyPieceAt data d1 idx = some d2) : keepsFinished d d2 j := by
  obtain ⟨hfile, p, p1, hp, hp1, hsha, hst⟩ := hk
  unfold verifyPieceAt at h
  split at h
  · cases h
  · rename_i q hq
    split at h
    · rename_i hd hqsha
      by_cases hij : idx = j
      · subst hij
        rw [hp1] at hq
        cases hq
        have hmatch : d1.file.Hash idx = some hd := by
          rw [hfile]
          exact hok rfl p hd hp (hsha ▸ hqsha)
        rw [if_pos hmatch] at h
        cases h
        have hlt : idx < d1.pieces.length := (List.getElem?_eq_some.mp hp1).1
        refine ⟨hfile, p, { p1 with state := STATE_FINISHED }, hp, ?_, hsha, rfl⟩
        simp [List.getElem?_set_self, hlt]
      · split at h
        · cases h
          refine ⟨hfile, p, p1, hp, ?_, hsha, hst⟩
          show (d1.pieces.set idx _)[j]? = some p1
          rw [List.getElem?_set_ne hij]
          exact hp1
        · split at h
          · cases h
          · cases h
            refine ⟨hfile, p, p1, hp, ?_, hsha, hst⟩
            show (d1.pieces.set idx _)[j]? = some p1
            rw [List.getElem?_set_ne hij]
            exact hp1
    · cases h
      exact ⟨hfile, p, p1, hp, hp1, hsha, hst⟩

theorem foldlM_keepsFinished (data : DownloadData) (d : IDownload) (j : Nat) (l : List Nat)
    (hok : j ∈ l → onDiskOk d j) :
    ∀ (d1 d2 : IDownload), keepsFinished d d1 j →
      l.foldlM (verifyPieceAt data) d1 = some d2 → keepsFinished d d2 j := by
  induction l with
  | nil =>
    intro d1 d2 hk h
    simp only [List.foldlM_nil] at h
    cases h
    exact hk
  | cons idx l ih =>
    intro d1 d2 hk h
    simp only [List.foldlM_cons] at h
    cases hstep : verifyPieceAt data d1 idx with
    | none => rw [hstep] at h; cases h
    | some d3 =>
      rw [hstep] at h
      exact ih (fun hj => hok (List.mem_cons_of_mem _ hj)) d3 d2
        (verifyPieceAt_keepsFinished data d d1 d3 j idx hk
          (fun hij => hok (by rw [hij]; exact List.mem_cons_self _ _)) hstep) h

theorem VerifyPieces_keeps_finished (data : DownloadData) (d d1 : IDownload) (j : Nat)
    (h : VerifyPieces data d = some d1)
    (hok : j < data.pieces.length → onDiskOk d j)
    (hfin : pieceState d.pieces j = some STATE_FINISHED) :
    pieceState d1.pieces j = some STATE_FINISHED := by
  unfold pieceState at hfin
  cases hp : d.pieces[j]? with
  | none => simp [hp] at hfin
  | some p =>
    rw [hp] at hfin
    simp only [Option.map_some', Option.some.injEq] at hfin
    have hk : keepsFinished d d j := ⟨rfl, p, p, hp, hp, rfl, hfin⟩
    obtain ⟨-, q, q1, -, hq1, -, hst⟩ := foldlM_keepsFinished data d j _
      (fun hj => hok (List.mem_range.mp hj)) d d1 hk h
    simp [pieceState, hq1, hst]

theorem processError_keeps_finished (data : DownloadData) (d d1 : IDownload) (j : Nat)
    (h : processError data d = some d1) (hj : (j : Int) ≠ data.start_piece)
    (hfin : pieceState d.pieces j = some STATE_FINISHED) :
    pieceState d1.pieces j = some STATE_FINISHED := by
  unfold processError at h
  simp only [] at h
  split at h
  · cases h
  · rename_i ps1 hps
    split at h
    · cases h
    · cases h
      show pieceState ps1 j = some STATE_FINISHED
      split at hps
      · rename_i h0
        have hne : j ≠ data.start_piece.toNat := by
          intro he
          apply hj
          rw [he]
          exact Int.toNat_of_nonneg h0
        unfold pieceState at hfin ⊢
        rw [setPieceState_other _ _ _ _ _ hps hne]
        exact hfin
      · cases hps
        exact hfin

/-- C8 (counterexample): in the seed scenario `download` computes two parallel
transfers, but the two slots it sets up do not ask for `0-1999999` and
`2000000-2999999`, and piece 2 is in neither of them. -/
theorem seed_scenario_slots_leave_piece_two :
    parallelCount 2 happyMultiPiece = 2 ∧
    (seedDownload 2 happyMultiPiece 1).map (fun r => r.2.map DownloadData.range) ≠
      some [some "0-1999999", some "2000000-2999999"] ∧
    (seedDownload 2 happyMultiPiece 1).map
        (fun r => r.2.map (fun s => s.pieces.contains 2)) = some [false, false] := by
  decide

/-- C8 (amended): in the seed scenario `download` computes two parallel
transfers and sets up exactly two slots, of one piece each (the share is
`3 / 2 = 1`): they ask for `0-999999` and `1000000-1999999`, pieces 0 and 1
are `DOWNLOADING` and piece 2 is still `NONE`. -/
theorem seed_scenario_ranges :
    parallelCount 2 happyMultiPiece = 2 ∧
    (seedDownload 2 happyMultiPiece 1).map
        (fun r => (r.2.map (fun s => (s.pieces, s.range)), r.1.pieces.map piece.state)) =
      some ([([0], some "0-999999"), ([1], some "1000000-1999999")],
        [STATE_DOWNLOADING, STATE_DOWNLOADING, STATE_NONE]) := by
  decide

/-- C9 (counterexample): on a download whose state is already `FINISHED`,
`verifyAndGetNextPieces` returns at once: the piece that is right on disk but
marked `NONE` stays `NONE`. -/
theorem finished_download_is_not_walked :
    finishedWithPieceNone.pieces ≠ [] ∧
    finishedWithPieceNone.file.isnewfile = false ∧
    finishedWithPieceNone.file.Hash 0 = some [1] ∧
    finishedWithPieceNone.pieces = [{ sha := some [1], state := STATE_NONE }] ∧
    (verifyAndGetNextPieces finishedWithPieceNone).map
        (fun r => (r.1, r.2.state, r.2.pieces.map piece.state)) =
      some ([], STATE_FINISHED, [STATE_NONE]) := by
  decide

/-- C9 (amended): for a download with a non-empty piece list in which every
piece has an expected SHA-1 and is `NONE` or `FINISHED`, whose file is not new
and holds the right bytes for every piece, and whose state is `FINISHED` only
if all its pieces are (so for every download not yet `FINISHED`),
`verifyAndGetNextPieces` returns the empty list and leaves every piece
`FINISHED` and the download `FINISHED`, changing nothing else; a second call
returns the empty list and changes nothing.  This holds whatever the number of
parallel transfers is. -/
theorem resumption_is_idempotent (d : IDownload) (hne : d.pieces ≠ [])
    (hsha : ∀ p ∈ d.pieces, p.sha.isSome = true)
    (hold : d.file.isnewfile = false)
    (hdisk : ∀ (i : Nat) (p : piece), d.pieces[i]? = some p → d.file.Hash i = p.sha)
    (hst : ∀ p ∈ d.pieces, p.state = STATE_NONE ∨ p.state = STATE_FINISHED)
    (hinv : d.state = STATE_FINISHED → ∀ p ∈ d.pieces, p.state = STATE_FINISHED) :
    ∃ d1, verifyAndGetNextPieces d = some ([], d1) ∧
      d1 = { d with pieces := d.pieces.map piece.finish, state := STATE_FINISHED } ∧
      (∀ p ∈ d1.pieces, p.state = STATE_FINISHED) ∧ d1.state = STATE_FINISHED ∧
      verifyAndGetNextPieces d1 = some ([], d1) := by
  refine ⟨{ d with pieces := d.pieces.map piece.finish, state := STATE_FINISHED }, ?_, rfl, ?_,
    rfl, ?_⟩
  · unfold verifyAndGetNextPieces
    by_cases hfin : d.state = STATE_FINISHED
    · have hmap : d.pieces.map piece.finish = d.pieces := by
        have hc : d.pieces.map piece.finish = d.pieces.map id :=
          List.map_congr_left (fun p hp => by
            have := hinv hfin p hp
            cases p
            simp_all [piece.finish])
        rw [hc, List.map_id]
      simp only [IDownload.isFinished, hfin, decide_True, if_true, hmap]
      cases d
      simp_all
    · have hemp : d.pieces.isEmpty = false := by
        cases hp : d.pieces with
        | nil => exact absurd hp hne
        | cons _ _ => rfl
      have hloop := nextPiecesLoop_all_on_disk d.file (fairShare d) hold d.pieces 0
        (fun j p hp => ⟨hsha p (List.getElem?_mem hp), by simpa using hdisk j p hp,
          hst p (List.getElem?_mem hp)⟩)
      have hlen : d.pieces.length ≠ 0 := by
        intro h0
        exact hne (List.length_eq_zero.mp h0)
      simp [IDownload.isFinished, hfin, hemp, hloop, hlen]
  · intro p hp
    simp only [List.mem_map] at hp
    obtain ⟨q, -, rfl⟩ := hp
    rfl
  · simp [verifyAndGetNextPieces, IDownload.isFinished]

/-- C9 (witness): three pieces of a former run, all right on disk. -/
theorem resumption_is_idempotent_witness :
    resumedDownload.pieces ≠ [] ∧ resumedDownload.file.isnewfile = false ∧
    resumedDownload.state ≠ STATE_FINISHED ∧
    ∃ d1, verifyAndGetNextPieces resumedDownload = some ([], d1) ∧
      d1 = { resumedDownload with
        pieces := resumedDownload.pieces.map piece.finish, state := STATE_FINISHED } ∧
      (∀ p ∈ d1.pieces, p.state = STATE_FINISHED) ∧ d1.state = STATE_FINISHED ∧
      verifyAndGetNextPieces d1 = some ([], d1) :=
  ⟨by decide, by decide, by decide,
    resumption_is_idempotent resumedDownload (by decide) (by decide) (by decide)
      (by
        intro i p hp
        have hps : resumedDownload.pieces =
            [{ sha := some [1], state := STATE_NONE }, { sha := some [2], state := STATE_FINISHED },
             { sha := some [3], state := STATE_NONE }] := by decide
        rw [hps] at hp
        rcases i with _ | _ | _ | i
        · cases hp; decide
        · cases hp; decide
        · cases hp; decide
        · simp at hp)
      (by decide) (by decide)⟩

/-- C10 (counterexample): `VerifyPieces` of the slot with piece range `[0]`
re-hashes piece 0, which is `FINISHED`, and sets it to `NONE` because its bytes
on disk do not match; the error branch of `processMessages` sets the first
piece of the failing slot to `NONE` although it is `FINISHED`. -/
theorem finished_piece_can_be_reverted :
    pieceState staleHead.pieces 0 = some STATE_FINISHED ∧
    (VerifyPieces slotOfPieceZero staleHead).map (fun d => pieceState d.pieces 0) =
      some (some STATE_NONE) ∧
    pieceState startVerified.pieces 2 = some STATE_FINISHED ∧
    (processError slotOfTail startVerified).map (fun d => pieceState d.pieces 2) =
      some (some STATE_NONE) := by
  decide

/-- C10 (amended): a piece `j` that is `FINISHED` is still `FINISHED` after
`verifyAndGetNextPieces`, after `setupDownload` (the selection and the marking
of the selected pieces), after `VerifyPieces` of a slot provided that the bytes
of `j` on disk match its SHA-1 (or it has none), and after the error branch of
`processMessages` provided that `j` does not belong to the failing slot (it is
neither its first piece nor in its piece range). -/
theorem finished_is_kept (d : IDownload) (data : DownloadData) (j : Nat)
    (hfin : pieceState d.pieces j = some STATE_FINISHED) :
    (∀ (sel : List Nat) (d1 : IDownload), verifyAndGetNextPieces d = some (sel, d1) →
        pieceState d1.pieces j = some STATE_FINISHED) ∧
    (∀ (b : Bool) (d1 : IDownload) (slot : DownloadData),
        setupDownload d data = some (b, d1, slot) →
        pieceState d1.pieces j = some STATE_FINISHED) ∧
    (∀ (d1 : IDownload), VerifyPieces data d = some d1 → onDiskOk d j →
        pieceState d1.pieces j = some STATE_FINISHED) ∧
    (∀ (d1 : IDownload), processError data d = some d1 →
        (j : Int) ≠ data.start_piece → j ∉ data.pieces →
        pieceState d1.pieces j = some STATE_FINISHED) := by
  refine ⟨?_, ?_, ?_, ?_⟩
  · intro sel d1 h
    exact pieceState_walk _ _ j ((verifyAndGetNextPieces_states d d1 sel h).1 j) hfin
  · intro b d1 slot h
    exact setupDownload_keeps_finished d d1 data slot b h j hfin
  · intro d1 h hok
    exact VerifyPieces_keeps_finished data d d1 j h (fun _ => hok) hfin
  · intro d1 h hj _
    exact processError_keeps_finished data d d1 j h hj hfin

/-- C10 (witness): piece 0 of the four-piece download, with the slot of pieces
2 and 3: each of the four operations returns a state and keeps it `FINISHED`. -/
theorem finished_is_kept_witness :
    pieceState tailInFlight.pieces 0 = some STATE_FINISHED ∧
    (∃ sel d1, verifyAndGetNextPieces tailInFlight = some (sel, d1) ∧
      pieceState d1.pieces 0 = some STATE_FINISHED) ∧
    (∃ b d1 slot, setupDownload tailInFlight slotOfTail = some (b, d1, slot) ∧
      pieceState d1.pieces 0 = some STATE_FINISHED) ∧
    (∃ d1, VerifyPieces slotOfTail tailInFlight = some d1 ∧
      pieceState d1.pieces 0 = some STATE_FINISHED) ∧
    (∃ d1, processError slotOfTail tailInFlight = some d1 ∧
      pieceState d1.pieces 0 = some STATE_FINISHED) :=
  ⟨by decide,
    match h : verifyAndGetNextPieces tailInFlight with
    | some (sel, d1) =>
      ⟨sel, d1, rfl, (finished_is_kept tailInFlight slotOfTail 0 (by decide)).1 sel d1 h⟩
    | none => absurd h (by decide),
    match h : setupDownload tailInFlight slotOfTail with
    | some (b, d1, slot) =>
      ⟨b, d1, slot, rfl,
        (finished_is_kept tailInFlight slotOfTail 0 (by decide)).2.1 b d1 slot h⟩
    | none => absurd h (by decide),
    match h : VerifyPieces slotOfTail tailInFlight with
    | some d1 =>
      ⟨d1, rfl, (finished_is_kept tailInFlight slotOfTail 0 (by decide)).2.2.1 d1 h
        (fun p hd hp hs => by
          have hps : tailInFlight.pieces[0]? = some { sha := some [1], state := STATE_FINISHED } := by
            decide
          rw [hps] at hp
          cases hp
          cases hs
          decide)⟩
    | none => absurd h (by decide),
    match h : processError slotOfTail tailInFlight with
    | some d1 =>
      ⟨d1, rfl, (finished_is_kept tailInFlight slotOfTail 0 (by decide)).2.2.2 d1 h
        (by decide) (by decide)⟩
    | none => absurd h (by decide)⟩

/-! ### The transfer loop and the driver -/

theorem processDone_returned (ok : Bool) (dlSpeed : Nat) (d d1 : IDownload)
    (data data1 : DownloadData) (b : Bool)
    (h : processDone ok dlSpeed d data = some (MsgResult.returned b, d1, data1)) : b = false := by
  unfold processDone at h
  split at h
  · cases h
  · split at h
    · cases h; rfl
    · split at h
      · cases h
      · split at h
        · cases h
        · simp only [] at h
          split at h
          · cases h
          · split at h
            · cases h
            · cases h

theorem processMessages_returns_false (msgs : List CurlMsg) :
    ∀ (dls : List IDownload) (downloads : List DownloadData)
      (r : Bool × List IDownload × List DownloadData × List CurlMsg),
      processMessages msgs dls downloads = some r → r.1 = false := by
  induction msgs with
  | nil =>
    intro dls downloads r h
    simp only [processMessages, Option.some.injEq] at h
    rw [← h]
  | cons msg rest ih =>
    intro dls downloads r h
    unfold processMessages at h
    split at h
    · split at h
      · cases h; rfl
      · cases h
    · split at h
      · cases h
      · split at h
        · cases h
        · split at h
          · cases h
          · rename_i hpd
            cases h
            exact processDone_returned _ _ _ _ _ _ _ hpd
          · exact ih _ _ _ h

theorem downloadLoop_not_aborted (trace : List PerformStep)
    (hok : ∀ step ∈ trace, step.ret_ok = true) :
    ∀ (running last : Int) (dls : List IDownload) (downloads : List DownloadData)
      (queue : List CurlMsg) (r : Bool × List IDownload × List DownloadData),
      downloadLoop trace running last false dls downloads queue = some r → r.1 = false := by
  induction trace with
  | nil =>
    intro running last dls downloads queue r h
    unfold downloadLoop at h
    split at h
    · cases h
    · cases h; rfl
  | cons step trace ih =>
    intro running last dls downloads queue r h
    have hs : step.ret_ok = true := hok step (List.mem_cons_self _ _)
    have ih1 := ih (fun s hs1 => hok s (List.mem_cons_of_mem _ hs1))
    unfold downloadLoop at h
    split at h
    · try rw [if_pos hs] at h
      split at h
      · split at h
        · cases h
        · rename_i ab dls1 downloads1 queue1 hpm
          have : ab = false := processMessages_returns_false _ _ _ _ hpm
          subst this
          exact ih1 _ _ _ _ _ _ h
      · exact ih1 _ _ _ _ _ _ h
    · cases h; rfl

/-- While `curl_multi_perform` returns `CURLM_OK`, `download` returns false
only from its first loop, where it does so for a download without mirrors and
for a file that cannot be opened. -/
theorem download_fails_only_while_seeding (max_parallel : Int) (trace : List PerformStep)
    (hok : ∀ step ∈ trace, step.ret_ok = true) (dls dls1 : List IDownload)
    (h : download max_parallel trace dls = some (false, dls1)) :
    ∃ slots, seedAll max_parallel dls 0 [] [] = some (false, dls1, slots) := by
  unfold download at h
  split at h
  · cases h
  · rename_i d s hseed
    cases h
    exact ⟨s, hseed⟩
  · split at h
    · cases h
    · split at h
      · cases h
      · rename_i ab dls2 s2 hl
        have : ab = false := downloadLoop_not_aborted trace hok _ _ _ _ _ _ hl
        subst this
        simp at h

/-- The second `return false` of the first loop: the file of `unopenableJob`
is not open yet and cannot be opened, so `download` returns false before a slot
is set up; `parallel_downloads` is assigned already and the file is still
null. -/
theorem download_fails_when_file_cannot_be_opened :
    unopenableJob.file_null = true ∧
    unopenableJob.file.Open unopenableJob.name unopenableJob.size unopenableJob.piecesize =
      false ∧
    download 2 abortedTrace [unopenableJob] =
      some (false, [{ unopenableJob with parallel_downloads := 2 }]) ∧
    (download 2 abortedTrace [{ unopenableJob with file_null := false }]).map Prod.fst =
      some true := by
  decide

theorem GetIDownloadByIDFrom_none (l : List IDownload) :
    ∀ (pos id : Int), pos + l.length ≤ id → GetIDownloadByIDFrom l pos id = none := by
  induction l with
  | nil => intro pos id _; rfl
  | cons dl rest ih =>
    intro pos id h
    simp only [List.length_cons, Nat.cast_add, Nat.cast_one] at h
    rw [GetIDownloadByIDFrom, if_neg (by omega)]
    exact ih _ _ (by omega)

theorem queuedDownloads_eq (searchres : List IDownload) (ids : List Int) :
    ∀ (dlsize : Nat) (dls : List IDownload),
      (∀ id ∈ ids, (GetIDownloadByID searchres id).isSome = true) →
      dlsize + totalPositiveSize (ids.filterMap (GetIDownloadByID searchres)) <
        18446744073709551616 →
      queuedDownloads searchres ids dlsize dls =
        some (dlsize + totalPositiveSize (ids.filterMap (GetIDownloadByID searchres)),
          dls ++ ids.filterMap (GetIDownloadByID searchres)) := by
  induction ids with
  | nil => intro dlsize dls _ _; simp [queuedDownloads, totalPositiveSize]
  | cons id rest ih =>
    intro dlsize dls hres hfit
    have h1 := hres id (List.mem_cons_self _ _)
    cases hdl : GetIDownloadByID searchres id with
    | none => rw [hdl] at h1; cases h1
    | some dl =>
      have hf : (id :: rest).filterMap (GetIDownloadByID searchres) =
          dl :: rest.filterMap (GetIDownloadByID searchres) := by
        simp [List.filterMap_cons, hdl]
      rw [hf] at hfit ⊢
      simp only [totalPositiveSize] at hfit ⊢
      rw [queuedDownloads, hdl]
      simp only []
      have hrest : ∀ x ∈ rest, (GetIDownloadByID searchres x).isSome = true :=
        fun x hx => hres x (List.mem_cons_of_mem _ hx)
      by_cases hpos : 0 < dl.size
      · simp only [hpos, if_true] at hfit ⊢
        have hm : (dlsize + dl.size.toNat) % 18446744073709551616 = dlsize + dl.size.toNat :=
          Nat.mod_eq_of_lt (by omega)
        rw [hm, ih _ _ hrest (by omega)]
        simp [Nat.add_assoc]
      · simp only [hpos, if_false] at hfit ⊢
        rw [ih _ _ hrest (by omega)]
        simp

theorem unfinishedCode_eq (l : List IDownload) :
    ∀ (res : Int), unfinishedCode l res =
      if ∃ dl ∈ l, dl.state ≠ STATE_FINISHED then 2 else res := by
  induction l with
  | nil => intro res; simp [unfinishedCode]
  | cons dl rest ih =>
    intro res
    rw [unfinishedCode, ih]
    by_cases h : dl.state ≠ STATE_FINISHED
    · simp [h]
    · simp only [h, if_false]
      simp only [ne_eq, not_not] at h
      simp [h]

/-- C11 (the code at the failing input): the abort flag is set while the two
slots of a two-piece download are in flight; every transfer ends with an error
and `curl_multi_perform` returns `CURLM_OK` throughout.  `download` returns
true, with the download unfinished and both pieces `NONE`. -/
theorem download_reports_success_after_abort :
    abortedTrace.all (fun step => step.ret_ok && step.msgs.all (fun m => !m.ok)) = true ∧
    (download 2 abortedTrace [twoPieceJob]).map
        (fun r => (r.1, r.2.map (fun d => (d.state, d.pieces.map piece.state)))) =
      some (true, [(STATE_NONE, [STATE_NONE, STATE_NONE])]) := by
  decide

/-- C12 (counterexample): with nothing queued and 500 MiB free, `DownloadStart`
returns 5, not 1. -/
theorem DownloadStart_nothing_queued_low_disk :
    emptyDriver.downloads = [] ∧
    DownloadStart 500 true searchForB 3 finishAll emptyDriver = some 5 ∧
    DownloadStart 500 false searchForB 3 finishAll emptyDriver ≠ some 1 := by
  decide

/-- C12 (amended): when every queued id resolves to a download (their sizes
adding up within `unsigned long`) and the dependency expansion, if asked for,
ends with the list `expanded`, the result of `DownloadStart` is the exit code
of the reference definition: 5 if fewer than `floor(total_size / 2^20) + 1024`
MiB are free, `total_size` being the sum of the positive sizes of the queued
downloads; otherwise 1 if `expanded` is empty; otherwise 2 if some download is
not `FINISHED` after the downloaders ran; otherwise 0.  With nothing queued it
is 1 when at least 1024 MiB are free and 5 otherwise. -/
theorem DownloadStart_exit_code (MBsFree : Nat) (fetchDepends : Bool)
    (search : String → List IDownload) (fuel : Nat) (run : List IDownload → List IDownload)
    (st : Driver) (expanded : List IDownload)
    (hres : ∀ id ∈ st.downloads, (GetIDownloadByID st.searchres id).isSome = true)
    (hfit : totalPositiveSize (st.downloads.filterMap (GetIDownloadByID st.searchres)) <
      18446744073709551616)
    (hexp : (if fetchDepends then
        addDepends search fuel (st.downloads.filterMap (GetIDownloadByID st.searchres))
      else some (st.downloads.filterMap (GetIDownloadByID st.searchres))) = some expanded) :
    DownloadStart MBsFree fetchDepends search fuel run st =
        some (exitCodeReference MBsFree
          (st.downloads.filterMap (GetIDownloadByID st.searchres)) expanded (run expanded)) ∧
    (st.downloads = [] →
      DownloadStart MBsFree fetchDepends search fuel run st =
        some (if MBsFree < 1024 then 5 else 1)) := by
  have hq := queuedDownloads_eq st.searchres st.downloads 0 [] hres (by simpa using hfit)
  simp only [Nat.zero_add, List.nil_append] at hq
  have hmain : DownloadStart MBsFree fetchDepends search fuel run st =
        some (exitCodeReference MBsFree
          (st.downloads.filterMap (GetIDownloadByID st.searchres)) expanded (run expanded)) := by
    unfold DownloadStart exitCodeReference
    rw [hq]
    simp only []
    rw [hexp]
    have e : (1024 * 1024 : Nat) = 2 ^ 20 := by norm_num
    rw [e]
    split_ifs <;> simp_all [unfinishedCode_eq, List.isEmpty_iff]
  refine ⟨hmain, fun hempty => ?_⟩
  rw [hmain]
  rw [hempty] at hexp ⊢
  have hx : expanded = [] := by
    cases fetchDepends <;> simp [addDepends, addDependsFrom] at hexp
    · exact hexp
    · cases fuel <;> simp [addDependsFrom] at hexp <;> exact hexp
  subst hx
  simp [exitCodeReference, totalPositiveSize]

/-- C12 (witness): the game `A` of 3 MiB is queued, its dependency `B` is
fetched, 2000 MiB are free and both downloads get finished: the exit code is
0. -/
theorem DownloadStart_exit_code_witness :
    (∀ id ∈ driverWithGame.downloads,
      (GetIDownloadByID driverWithGame.searchres id).isSome = true) ∧
    addDepends searchForB 3 [gameA] = some [gameA, mapB] ∧
    DownloadStart 2000 true searchForB 3 finishAll driverWithGame = some 0 :=
  ⟨by decide, by decide,
    ((DownloadStart_exit_code 2000 true searchForB 3 finishAll driverWithGame [gameA, mapB]
      (by decide) (by decide) (by decide)).1).trans (by decide)⟩

/-- C13 (the code at the failing input): a search result with an entry of the
unknown category `tool` and an entry of the category `map`.  `ParseResult`
returns true with two downloads: the entry of unknown category is kept, with
an empty directory name in its path. -/
theorem ParseResult_keeps_unknown_category :
    (ParseResult sampleEnv (some sampleResult) []).1 = true ∧
    (ParseResult sampleEnv (some sampleResult) []).2.map
        (fun d => (d.name, d.origin_name, d.mirrors.map Mirror.url)) =
      [("/home/u/.spring//tool.zip", "Some Tool", ["http://a.example/tool.zip"]),
       ("/home/u/.spring/maps/some_map.sd7", "Some Map", ["http://a.example/some_map.sd7"])] := by
  decide

/-- C14 (the code at the failing input): with pieces 0 and 2 `NONE` and pieces 1
and 3 in flight, `verifyAndGetNextPieces` returns `[0, 2]`, which is not a run
of consecutive indices; `setupDownload` then asks for the bytes of pieces 0
and 1. -/
theorem selection_skips_over_downloading_piece :
    (verifyAndGetNextPieces gapInRun).map (fun r => r.1) = some [0, 2] ∧
    (setupDownload gapInRun (newDownloadData 3)).map
        (fun r => (r.2.2.pieces, r.2.2.range, r.2.1.pieces.map piece.state)) =
      some ([0, 2], some "0-1999999",
        [STATE_DOWNLOADING, STATE_DOWNLOADING, STATE_DOWNLOADING, STATE_DOWNLOADING]) := by
  decide

/-- C15 (counterexample): for `max_parallel` 0 or negative the count that
`download` assigns is `max_parallel` itself, not 1. -/
theorem parallelCount_not_clamped_below :
    1 ≤ happyMultiPiece.mirrors.length ∧ 1 ≤ happyMultiPiece.pieces.length ∧
    parallelCount 0 happyMultiPiece = 0 ∧
    clamp 0 1 (min (happyMultiPiece.pieces.length : Int) happyMultiPiece.getMirrorCount) = 1 ∧
    parallelCount (-3) happyMultiPiece = -3 := by
  decide

/-- C15 (amended): for a download with at least one mirror and at least one
piece and a requested `max_parallel` of at least 1, the count that `download`
assigns is `clamp(max_parallel, 1, min(pieces, mirrors))`; it is at least 1,
and it is 1 when there is exactly one mirror. -/
theorem parallelCount_clamp (d : IDownload) (max_parallel : Int)
    (hm : 1 ≤ d.mirrors.length) (hp : 1 ≤ d.pieces.length)
    (hfit : d.pieces.length ≤ 2147483647) (h1 : 1 ≤ max_parallel) :
    parallelCount max_parallel d =
        clamp max_parallel 1 (min (d.pieces.length : Int) d.getMirrorCount) ∧
      1 ≤ parallelCount max_parallel d ∧
      (d.mirrors.length = 1 → parallelCount max_parallel d = 1) := by
  have hw : wrapInt (d.pieces.length : Int) = (d.pieces.length : Int) :=
    wrapInt_of_fits _ (by omega) (by omega)
  unfold parallelCount clamp IDownload.getMirrorCount
  rw [hw]
  refine ⟨?_, by omega, fun h => by omega⟩
  split_ifs <;> omega

/-- C15 (witness): three pieces, two mirrors, `max_parallel` 2. -/
theorem parallelCount_clamp_witness :
    1 ≤ happyMultiPiece.mirrors.length ∧ 1 ≤ happyMultiPiece.pieces.length ∧
    parallelCount 2 happyMultiPiece = 2 ∧
    parallelCount 2 happyMultiPiece =
      clamp 2 1 (min (happyMultiPiece.pieces.length : Int) happyMultiPiece.getMirrorCount) ∧
    1 ≤ parallelCount 2 happyMultiPiece :=
  ⟨by decide, by decide, by decide,
    (parallelCount_clamp happyMultiPiece 2 (by decide) (by decide) (by decide) (by decide)).1,
    (parallelCount_clamp happyMultiPiece 2 (by decide) (by decide) (by decide) (by decide)).2.1⟩

/-- C16 (the code at the failing input): on empty search results
`DownloadAddByUrl` returns the id 1, one more than the position 0 of the
download it appended.  `DownloadAdd` accepts the id 1, `GetIDownloadByID`
resolves it to the null pointer, and `DownloadStart` has no defined result
with it queued. -/
theorem added_id_resolves_to_null :
    (DownloadAddByUrl Category.CAT_MAP "maps/a.sd7" "http://a.example/a.sd7" emptyDriver).1 = 1 ∧
    (DownloadAddByUrl Category.CAT_MAP "maps/a.sd7" "http://a.example/a.sd7"
        emptyDriver).2.searchres.map IDownload.name = ["maps/a.sd7"] ∧
    (DownloadAdd 1
        (DownloadAddByUrl Category.CAT_MAP "maps/a.sd7" "http://a.example/a.sd7" emptyDriver).2).1
      = true ∧
    GetIDownloadByID
        (DownloadAddByUrl Category.CAT_MAP "maps/a.sd7" "http://a.example/a.sd7"
          emptyDriver).2.searchres 1 = none ∧
    (GetIDownloadByID
        (DownloadAddByUrl Category.CAT_MAP "maps/a.sd7" "http://a.example/a.sd7"
          emptyDriver).2.searchres 0).map IDownload.name = some "maps/a.sd7" ∧
    DownloadStart 100000 false searchForB 0 finishAll
        (DownloadAdd 1
          (DownloadAddByUrl Category.CAT_MAP "maps/a.sd7" "http://a.example/a.sd7"
            emptyDriver).2).2 = none := by
  decide

/-! ### General facts behind the evaluations of `ParseResult` and of the ids -/

theorem foldl_addMirror_name (urls : List String) :
    ∀ (d : IDownload), (urls.foldl IDownload.addMirror d).name = d.name := by
  induction urls with
  | nil => intro d; rfl
  | cons u rest ih => intro d; rw [List.foldl_cons, ih]; rfl

theorem foldl_addDepend_name (deps : List String) :
    ∀ (d : IDownload), (deps.foldl IDownload.addDepend d).name = d.name := by
  induction deps with
  | nil => intro d; rfl
  | cons u rest ih => intro d; rw [List.foldl_cons, ih]; rfl

/-- Every entry of the right shape yields a download, whatever its category:
the path is made of the directory of the category, which is empty for an
unknown one. -/
theorem parseEntry_of_well_formed (env : ParseEnv) (resfile : JsonValue)
    (h1 : resfile.isObject = true) (h2 : (resfile.member "category").isString = true)
    (h3 : (resfile.member "springname").isString = true)
    (h4 : (resfile.member "mirrors").isArray = true)
    (h5 : (resfile.member "filename").isString = true) :
    ∃ dl, parseEntry env resfile = some dl ∧
      dl.name = env.springDir ++ env.pathDelimiter ++
        categoryDir (resfile.member "category").asString ++ env.pathDelimiter ++
        env.escapeFilename (resfile.member "filename").asString := by
  unfold parseEntry
  simp only [h1, h2, h3, h4, h5, Bool.true_eq_false, if_false, or_self]
  refine ⟨_, rfl, ?_⟩
  split_ifs <;> simp [foldl_addDepend_name, foldl_addMirror_name, newIDownload]

/-- The id that `DownloadAddByUrl` returns is the number of search results
after the call: `DownloadAdd` accepts it and `GetIDownloadByID` finds nothing
at it. -/
theorem DownloadAddByUrl_id_past_the_end (cat : Category) (filename url : String)
    (st : Driver) (hlen : st.searchres.length + 1 ≤ 2147483647) :
    (DownloadAddByUrl cat filename url st).1 = (st.searchres.length : Int) + 1 ∧
    (DownloadAdd (DownloadAddByUrl cat filename url st).1
      (DownloadAddByUrl cat filename url st).2).1 = true ∧
    GetIDownloadByID (DownloadAddByUrl cat filename url st).2.searchres
      (DownloadAddByUrl cat filename url st).1 = none := by
  have hid : (DownloadAddByUrl cat filename url st).1 = (st.searchres.length : Int) + 1 := by
    unfold DownloadAddByUrl
    simp only [List.length_append, List.length_singleton, Nat.cast_add, Nat.cast_one]
    exact wrapInt_of_fits _ (by omega) (by omega)
  refine ⟨hid, ?_, ?_⟩
  · rw [hid]
    unfold DownloadAdd DownloadAddByUrl
    simp only [List.length_append, List.length_singleton]
    have : (((st.searchres.length : Int) + 1) % 4294967296).toNat = st.searchres.length + 1 := by
      omega
    rw [this]
    simp
  · rw [hid]
    unfold GetIDownloadByID
    apply GetIDownloadByIDFrom_none
    unfold DownloadAddByUrl
    simp

end PrDownloader
